import Mathlib

/-!
Verification development for the `sql_pbl` SQL compiler and in-memory
database.

The Python sources `src/sql_compiler.py` (lexer, recursive-descent parser,
SQL regenerator) and `src/database.py` (catalog, tables, executor) are
shallowly embedded below:

* pure Python functions become Lean functions;
* the lexer's cursor state becomes recursion over `List Char`;
* Python exceptions (`SyntaxError`, `TypeError`, `KeyError`,
  `AttributeError`, `IndexError`, `ZeroDivisionError`) become `Except`;
* Python `int` becomes `Int`, Python `str` becomes `String`;
* Python `float` values are modelled exactly: literal floats parsed from
  decimal lexemes are kept as exact decimals (mantissa/exponent), and
  arithmetic in the evaluator is done over `ℚ`.  This coincides with
  CPython on every decimal literal short enough for the binary double's
  shortest-repr to be the literal itself (and floating point rounding is
  exercised by no claim below);
* token line/column bookkeeping is dropped: positions feed only the text
  of error messages, which no claim inspects; token kinds and lexemes are
  kept exactly.

Loops whose termination Python leaves implicit are given explicit fuel;
adequacy lemmas discharge the fuel in every theorem.
-/

set_option maxHeartbeats 1000000

deriving instance DecidableEq for Except

namespace SqlPbl

/-! ## Token kinds (`TokenType` in `sql_compiler.py`) -/

inductive Tok where
  | SELECT | FROM | WHERE | INSERT | INTO | VALUES | UPDATE | SET | DELETE
  | CREATE | TABLE | DROP | JOIN | ON | AND | OR | NOT | NULL
  | INT | TEXT | FLOAT | DATE
  | EQUALS | GREATER | LESS | GREATER_EQUALS | LESS_EQUALS | NOT_EQUALS
  | PLUS | MINUS | ASTERISK | DIVIDE
  | COMMA | SEMICOLON | LEFT_PAREN | RIGHT_PAREN | DOT
  | IDENTIFIER | INTEGER | FLOAT_LITERAL | STRING | EOF | ERROR
  deriving DecidableEq, Repr

/-- A lexical token: kind plus lexeme (`Token` in `sql_compiler.py`;
line/column are dropped, see the module comment). -/
structure Token where
  type : Tok
  lexeme : String
  deriving DecidableEq, Repr

/-! ## Character predicates

Python's `str.isspace`, `str.isdigit`, `str.isalpha`, `str.isalnum` are
modelled on their ASCII fragment; every lexeme any claim touches is
ASCII. -/

/-- `str.isspace` on ASCII: space, tab, newline, carriage return,
vertical tab, form feed. -/
def pyIsSpace (c : Char) : Bool :=
  c = ' ' || c = '\t' || c = '\n' || c = '\r' || c = '\x0b' || c = '\x0c'

/-- Characters that may continue an identifier: alphanumeric or
underscore (`self.peek().isalnum() or self.peek() == '_'`). -/
def isIdentChar (c : Char) : Bool :=
  c.isAlphanum || c = '_'

/-- Characters that may start an identifier
(`char.isalpha() or char == '_'`). -/
def isIdentStart (c : Char) : Bool :=
  c.isAlpha || c = '_'

/-- Python `str.lower()` on the ASCII strings that occur here, written
structurally so that it reduces in the kernel. -/
def lowerStr (s : String) : String :=
  ⟨s.data.map Char.toLower⟩

/-- The keyword table of `Lexer.__init__`, keyed by lower-cased lexeme. -/
def keywords : List (String × Tok) :=
  [("select", .SELECT), ("from", .FROM), ("where", .WHERE),
   ("insert", .INSERT), ("into", .INTO), ("values", .VALUES),
   ("update", .UPDATE), ("set", .SET), ("delete", .DELETE),
   ("create", .CREATE), ("table", .TABLE), ("drop", .DROP),
   ("join", .JOIN), ("on", .ON), ("and", .AND), ("or", .OR),
   ("not", .NOT), ("null", .NULL), ("int", .INT), ("text", .TEXT),
   ("float", .FLOAT), ("date", .DATE)]

/-- `self.keywords.get(lexeme.lower(), TokenType.IDENTIFIER)`. -/
def kwLookup (s : String) : Tok :=
  match keywords.lookup (lowerStr s) with
  | some t => t
  | none => .IDENTIFIER

/-! ## Lexer (`Lexer` in `sql_compiler.py`)

The cursor `(input, position)` is modelled by the list of characters not
yet consumed.  `peek()` at end of input returns the sentinel `'\0'` in
Python; here the end of the list plays that role, except where the code
tests for `'\0'` explicitly (strings and comments), where an embedded
NUL character behaves exactly as in Python. -/

/-- The consumption loop of `Lexer.number`: digits and dots, breaking
just before a second dot.  Returns (lexeme, is_float, rest). -/
def numRun : List Char → Bool → List Char × Bool × List Char
  | [], f => ([], f, [])
  | c :: cs, f =>
    if c.isDigit then
      let (l, f', r) := numRun cs f
      (c :: l, f', r)
    else if c = '.' then
      if f then ([], f, c :: cs)
      else
        let (l, f', r) := numRun cs true
        ('.' :: l, f', r)
    else ([], f, c :: cs)

/-- `Lexer.number`. -/
def numberTok (cs : List Char) : Token × List Char :=
  if (numRun cs false).2.1 then
    (⟨.FLOAT_LITERAL, String.mk (numRun cs false).1⟩, (numRun cs false).2.2)
  else (⟨.INTEGER, String.mk (numRun cs false).1⟩, (numRun cs false).2.2)

/-- `Lexer.string`, after the opening quote has been consumed: consume
until the matching quote or a NUL/end-of-input (Python's `'\0'` peek
sentinel); the latter yields an ERROR token carrying the partial text. -/
def stringTok (quote : Char) (cs : List Char) : Token × List Char :=
  match cs.dropWhile (fun c => c ≠ quote && c ≠ '\x00') with
  | [] => (⟨.ERROR, String.mk (cs.takeWhile (fun c => c ≠ quote && c ≠ '\x00'))⟩, [])
  | c :: r' =>
    if c = quote then
      (⟨.STRING, String.mk (cs.takeWhile (fun c => c ≠ quote && c ≠ '\x00'))⟩, r')
    else
      (⟨.ERROR, String.mk (cs.takeWhile (fun c => c ≠ quote && c ≠ '\x00'))⟩,
        c :: r')

/-- `Lexer.skip_comment`: a `#` consumes through (not including) the next
newline or NUL/end-of-input. -/
def skipComment : List Char → List Char
  | [] => []
  | c :: rest =>
    if c = '#' then (c :: rest).dropWhile (fun x => x ≠ '\n' && x ≠ '\x00')
    else c :: rest

/-- The dispatch of `Lexer.get_next_token` after whitespace and comment
skipping.  (`Lexer.identifier`'s maximal alphanumeric/underscore run is
the takeWhile/dropWhile pair.) -/
def nextTokenCore (cs : List Char) : Token × List Char :=
  match cs with
  | [] => (⟨.EOF, ""⟩, [])
  | c :: rest =>
    if isIdentStart c then
      (⟨kwLookup (String.mk ((c :: rest).takeWhile isIdentChar)),
        String.mk ((c :: rest).takeWhile isIdentChar)⟩,
        (c :: rest).dropWhile isIdentChar)
    else if c.isDigit then numberTok (c :: rest)
    else if c = '\'' || c = '"' then stringTok c rest
    else if c = '=' then (⟨.EQUALS, "="⟩, rest)
    else if c = '>' then
      match rest with
      | '=' :: r => (⟨.GREATER_EQUALS, ">="⟩, r)
      | _ => (⟨.GREATER, ">"⟩, rest)
    else if c = '<' then
      match rest with
      | '=' :: r => (⟨.LESS_EQUALS, "<="⟩, r)
      | _ => (⟨.LESS, "<"⟩, rest)
    else if c = '!' then
      match rest with
      | '=' :: r => (⟨.NOT_EQUALS, "!="⟩, r)
      | _ => (⟨.ERROR, "!"⟩, rest)
    else if c = '+' then (⟨.PLUS, "+"⟩, rest)
    else if c = '-' then (⟨.MINUS, "-"⟩, rest)
    else if c = '*' then (⟨.ASTERISK, "*"⟩, rest)
    else if c = '/' then (⟨.DIVIDE, "/"⟩, rest)
    else if c = ',' then (⟨.COMMA, ","⟩, rest)
    else if c = ';' then (⟨.SEMICOLON, ";"⟩, rest)
    else if c = '(' then (⟨.LEFT_PAREN, "("⟩, rest)
    else if c = ')' then (⟨.RIGHT_PAREN, ")"⟩, rest)
    else if c = '.' then (⟨.DOT, "."⟩, rest)
    else (⟨.ERROR, String.mk [c]⟩, rest)

/-- `Lexer.get_next_token`, returning the token and the rest of the
input. -/
def nextToken (cs0 : List Char) : Token × List Char :=
  nextTokenCore (skipComment (cs0.dropWhile pyIsSpace))

/-- Repeatedly call `nextToken` until EOF, collecting the tokens
(`SQLGenerator.tokenize` / the `Parser`'s token stream).  The fuel is
only a termination device; `lexAll_fuel` below shows any fuel above the
input length gives the same answer. -/
def lexAll : Nat → List Char → List Token
  | 0, _ => []
  | fuel + 1, cs =>
    let (t, r) := nextToken cs
    if t.type = .EOF then [] else t :: lexAll fuel r

/-- Token stream of a query string. -/
def tokenizeC (cs : List Char) : List Token :=
  lexAll (cs.length + 1) cs

/-- Token stream of a query string. -/
def tokenize (s : String) : List Token :=
  tokenizeC s.data

/-! ## Decimal digits

Machinery for Python's `int(lexeme)` / `float(lexeme)` and
`str(value)`. -/

/-- Digit value of an ASCII digit character. -/
def charVal (c : Char) : Nat :=
  c.toNat - 48

/-- Decimal reading of a digit string, most significant first. -/
def strToNat (s : String) : Nat :=
  s.data.foldl (fun a c => 10 * a + charVal c) 0

/-- `int(lexeme)` restricted to the digit runs the lexer produces. -/
def pyIntOfStr (s : String) : Except String Int :=
  if s.data ≠ [] ∧ ∀ c ∈ s.data, c.isDigit then .ok (strToNat s : Int)
  else .error "ValueError"

structure PyFloat where
  mant : Nat
  exp : Nat
  deriving DecidableEq, Repr

/-- Normalise `m / 10 ^ e`: guarantee at least one fractional digit and
strip trailing fractional zeros. -/
def normFloat : Nat → Nat → PyFloat
  | m, 0 => ⟨m * 10, 1⟩
  | m, 1 => ⟨m, 1⟩
  | m, e + 2 =>
    if m % 10 = 0 then normFloat (m / 10) (e + 1) else ⟨m, e + 2⟩

/-- Number of `'.'` characters in a lexeme. -/
def dotCount (cs : List Char) : Nat :=
  (cs.filter (fun c => c = '.')).length

/-- `float(lexeme)` restricted to the digit/dot runs the lexer
produces. -/
def pyFloatOfStr (s : String) : Except String PyFloat :=
  if (∀ c ∈ s.data, c.isDigit ∨ c = '.') ∧ dotCount s.data ≤ 1 ∧
      (∃ c ∈ s.data, c.isDigit) then
    let ip := s.data.takeWhile (fun c => c ≠ '.')
    let fp := (s.data.dropWhile (fun c => c ≠ '.')).drop 1
    .ok (normFloat (strToNat (String.mk ip) * 10 ^ fp.length +
      strToNat (String.mk fp)) fp.length)
  else .error "ValueError"

/-- Rational value of a modelled float. -/
def PyFloat.toRat (f : PyFloat) : ℚ :=
  (f.mant : ℚ) / (10 ^ f.exp : ℚ)

/-- A float is in the normal form `normFloat` produces. -/
def PyFloat.norm (f : PyFloat) : Prop :=
  1 ≤ f.exp ∧ (f.exp = 1 ∨ f.mant % 10 ≠ 0)

instance (f : PyFloat) : Decidable f.norm := by
  unfold PyFloat.norm; infer_instance

/-! ## AST (`NodeType`/`ASTNode` in `sql_compiler.py`)

The source uses one dynamically-typed node class with a field dictionary;
here each node shape the parser actually builds becomes a typed variant
carrying exactly the fields the parser stores.  Identifier wrapper nodes
whose only use is a `.data['name']` projection (table names, SET-clause
left-hand sides) are flattened to the name string; the `COLUMN_DEF`
node's `name` field is kept as a full node because `_execute_create`
stores that node itself (not a string) into the catalog. -/

/-- Literal payloads (`NodeType.LITERAL`, fields `value_type`/`value`). -/
inductive Lit where
  | int (n : Int)
  | float (f : PyFloat)
  | str (s : String)
  | null
  deriving DecidableEq, Repr

/-- Expression/condition nodes (`IDENTIFIER`, `LITERAL`, `EXPRESSION`,
`CONDITION`), each with the `left`/`operator`/`right` fields the parser
stores. -/
inductive Node where
  | ident (name : String)
  | lit (v : Lit)
  | expr (op : Tok) (l r : Node)
  | cond (op : Tok) (l r : Node)
  deriving DecidableEq, Repr

/-- A `JOIN tableRef ON condition` clause. -/
structure JoinClause where
  table : String
  onCond : Node
  deriving DecidableEq, Repr

structure SelectStmt where
  columns : List Node
  tables : List String
  joins : List JoinClause
  whereClause : Option Node
  deriving DecidableEq, Repr

structure InsertStmt where
  table : String
  columns : List Node
  values : List Node
  deriving DecidableEq, Repr

/-- One `col = expr` item of an UPDATE's SET list. -/
structure SetClause where
  left : String
  right : Node
  deriving DecidableEq, Repr

structure UpdateStmt where
  table : String
  setClauses : List SetClause
  whereClause : Option Node
  deriving DecidableEq, Repr

structure DeleteStmt where
  table : String
  whereClause : Option Node
  deriving DecidableEq, Repr

/-- `NodeType.COLUMN_DEF`: the `name` field holds the identifier *node*
built by `Parser.column_definition`. -/
structure ColumnDefAst where
  name : Node
  dataType : Tok
  deriving DecidableEq, Repr

structure CreateStmt where
  table : String
  columns : List ColumnDefAst
  deriving DecidableEq, Repr

structure DropStmt where
  table : String
  deriving DecidableEq, Repr

inductive Stmt where
  | select (s : SelectStmt)
  | insert (s : InsertStmt)
  | update (s : UpdateStmt)
  | delete (s : DeleteStmt)
  | create (s : CreateStmt)
  | drop (s : DropStmt)
  deriving DecidableEq, Repr

/-! ## Parser (`Parser` in `sql_compiler.py`)

A parse function takes the remaining token stream and yields the parsed
value plus the unconsumed suffix, or the `SyntaxError` message class.
The parser object's one-token lookahead is the head of the list; an
exhausted list plays the role of the EOF token.  Functions whose Python
counterpart loops or recurses on data of unbounded size take explicit
fuel; call sites pass `length + 1`-style fuel, shown adequate in the
lemmas below. -/

/-- Type of the lookahead token (`self.current_token.type`). -/
def peekT : List Token → Tok
  | [] => .EOF
  | t :: _ => t.type

abbrev PRes (α : Type) := Except String (α × List Token)

/-- `Parser.literal`. -/
def parseLiteral : List Token → PRes Node
  | ⟨.INTEGER, lex⟩ :: r =>
    match pyIntOfStr lex with
    | .ok n => .ok (.lit (.int n), r)
    | .error e => .error e
  | ⟨.FLOAT_LITERAL, lex⟩ :: r =>
    match pyFloatOfStr lex with
    | .ok f => .ok (.lit (.float f), r)
    | .error e => .error e
  | ⟨.STRING, lex⟩ :: r => .ok (.lit (.str lex), r)
  | ⟨.NULL, _⟩ :: r => .ok (.lit .null, r)
  | _ => .error "SyntaxError: Expected literal"

/-- `Parser.expression`. -/
def parseExpr : List Token → PRes Node
  | ⟨.IDENTIFIER, lex⟩ :: r =>
    match r with
    | ⟨.DOT, _⟩ :: r2 =>
      match r2 with
      | ⟨.IDENTIFIER, lex2⟩ :: r3 =>
        .ok (.expr .DOT (.ident lex) (.ident lex2), r3)
      | _ => .error "SyntaxError: Expected column name after dot"
    | _ => .ok (.ident lex, r)
  | t :: r =>
    if t.type = .INTEGER ∨ t.type = .FLOAT_LITERAL ∨ t.type = .STRING ∨
        t.type = .NULL then
      parseLiteral (t :: r)
    else if t.type = .LEFT_PAREN then
      match parseExpr r with
      | .ok (node, r2) =>
        match r2 with
        | ⟨.RIGHT_PAREN, _⟩ :: r3 => .ok (node, r3)
        | _ => .error "SyntaxError: Expected RIGHT_PAREN"
      | .error e => .error e
    else .error "SyntaxError: Unexpected token in expression"
  | [] => .error "SyntaxError: Unexpected token in expression"

/-- The comparison-operator set tested by `Parser.condition`. -/
def isCmpOp (t : Tok) : Bool :=
  t = .EQUALS || t = .NOT_EQUALS || t = .GREATER || t = .LESS ||
    t = .GREATER_EQUALS || t = .LESS_EQUALS

mutual

/-- `Parser.condition`: an expression, an optional comparison, then the
trailing `(AND|OR) condition` loop. -/
def parseCond : Nat → List Token → PRes Node
  | 0, _ => .error "SyntaxError: fuel"
  | fuel + 1, ts =>
    match parseExpr ts with
    | .error e => .error e
    | .ok (node, r) =>
      if isCmpOp (peekT r) then
        match r with
        | t :: r1 =>
          match parseExpr r1 with
          | .error e => .error e
          | .ok (right, r2) => condLoop fuel (.cond t.type node right) r2
        | [] => .error "SyntaxError"
      else condLoop fuel node r

/-- The `while AND/OR` loop at the end of `Parser.condition`. -/
def condLoop : Nat → Node → List Token → PRes Node
  | 0, _, _ => .error "SyntaxError: fuel"
  | fuel + 1, node, ts =>
    if peekT ts = .AND ∨ peekT ts = .OR then
      match ts with
      | t :: r =>
        match parseCond fuel r with
        | .error e => .error e
        | .ok (right, r2) => condLoop fuel (.cond t.type node right) r2
      | [] => .error "SyntaxError"
    else .ok (node, ts)

end

/-- `expression (',' expression)*` (the body of `Parser.column_list`'s
else-branch, and the VALUES list of `Parser.insert_statement`). -/
def parseExprList : Nat → List Token → PRes (List Node)
  | 0, _ => .error "SyntaxError: fuel"
  | fuel + 1, ts =>
    match parseExpr ts with
    | .error e => .error e
    | .ok (e, r) =>
      match r with
      | ⟨.COMMA, _⟩ :: r1 =>
        match parseExprList fuel r1 with
        | .error e2 => .error e2
        | .ok (es, r2) => .ok (e :: es, r2)
      | _ => .ok ([e], r)

/-- `Parser.column_list`. -/
def parseColumnList (fuel : Nat) (ts : List Token) : PRes (List Node) :=
  match ts with
  | ⟨.ASTERISK, _⟩ :: r => .ok ([.ident "*"], r)
  | _ => parseExprList fuel ts

/-- `Parser.table_reference` (flattened to the table name). -/
def parseTableRef : List Token → PRes String
  | ⟨.IDENTIFIER, lex⟩ :: r => .ok (lex, r)
  | _ => .error "SyntaxError: Expected table name"

/-- `Parser.table_list`. -/
def parseTableList : Nat → List Token → PRes (List String)
  | 0, _ => .error "SyntaxError: fuel"
  | fuel + 1, ts =>
    match parseTableRef ts with
    | .error e => .error e
    | .ok (name, r) =>
      match r with
      | ⟨.COMMA, _⟩ :: r1 =>
        match parseTableList fuel r1 with
        | .error e2 => .error e2
        | .ok (names, r2) => .ok (name :: names, r2)
      | _ => .ok ([name], r)

/-- The `while JOIN` loop of `Parser.select_statement`, with
`Parser.join_clause` inlined. -/
def parseJoins : Nat → List Token → PRes (List JoinClause)
  | 0, _ => .error "SyntaxError: fuel"
  | fuel + 1, ts =>
    match ts with
    | ⟨.JOIN, _⟩ :: r =>
      match parseTableRef r with
      | .error e => .error e
      | .ok (name, r1) =>
        match r1 with
        | ⟨.ON, _⟩ :: r2 =>
          match parseCond (r2.length + 1) r2 with
          | .error e => .error e
          | .ok (c, r3) =>
            match parseJoins fuel r3 with
            | .error e => .error e
            | .ok (js, r4) => .ok (⟨name, c⟩ :: js, r4)
        | _ => .error "SyntaxError: Expected ON"
    | _ => .ok ([], ts)

/-- `Parser.select_statement` after the SELECT keyword. -/
def parseSelect (ts : List Token) : PRes SelectStmt :=
  match parseColumnList (ts.length + 1) ts with
  | .error e => .error e
  | .ok (cols, r) =>
    match r with
    | ⟨.FROM, _⟩ :: r1 =>
      match parseTableList (r1.length + 1) r1 with
      | .error e => .error e
      | .ok (tabs, r2) =>
        match parseJoins (r2.length + 1) r2 with
        | .error e => .error e
        | .ok (js, r3) =>
          match r3 with
          | ⟨.WHERE, _⟩ :: r4 =>
            match parseCond (r4.length + 1) r4 with
            | .error e => .error e
            | .ok (c, r5) => .ok (⟨cols, tabs, js, some c⟩, r5)
          | _ => .ok (⟨cols, tabs, js, none⟩, r3)
    | _ => .error "SyntaxError: Expected FROM"

/-- `Parser.insert_statement` after the INSERT keyword. -/
def parseInsert (ts : List Token) : PRes InsertStmt :=
  match ts with
  | ⟨.INTO, _⟩ :: r =>
    match r with
    | ⟨.IDENTIFIER, tname⟩ :: r1 =>
      let colPart : PRes (List Node) :=
        match r1 with
        | ⟨.LEFT_PAREN, _⟩ :: r2 =>
          match parseColumnList (r2.length + 1) r2 with
          | .error e => .error e
          | .ok (cols, r3) =>
            match r3 with
            | ⟨.RIGHT_PAREN, _⟩ :: r4 => .ok (cols, r4)
            | _ => .error "SyntaxError: Expected RIGHT_PAREN"
        | _ => .ok ([], r1)
      match colPart with
      | .error e => .error e
      | .ok (cols, r5) =>
        match r5 with
        | ⟨.VALUES, _⟩ :: ⟨.LEFT_PAREN, _⟩ :: r6 =>
          match parseExprList (r6.length + 1) r6 with
          | .error e => .error e
          | .ok (vals, r7) =>
            match r7 with
            | ⟨.RIGHT_PAREN, _⟩ :: r8 => .ok (⟨tname, cols, vals⟩, r8)
            | _ => .error "SyntaxError: Expected RIGHT_PAREN"
        | _ => .error "SyntaxError: Expected VALUES"
    | _ => .error "SyntaxError: Expected table name"
  | _ => .error "SyntaxError: Expected INTO"

/-- One `IDENTIFIER '=' expression` SET item of
`Parser.update_statement`. -/
def parseSetClause (ts : List Token) : PRes SetClause :=
  match ts with
  | ⟨.IDENTIFIER, cname⟩ :: ⟨.EQUALS, _⟩ :: r =>
    match parseExpr r with
    | .error e => .error e
    | .ok (e, r1) => .ok (⟨cname, e⟩, r1)
  | ⟨.IDENTIFIER, _⟩ :: _ => .error "SyntaxError: Expected EQUALS"
  | _ => .error "SyntaxError: Expected column name"

/-- The SET list: one clause then the `while COMMA` loop. -/
def parseSetClauses : Nat → List Token → PRes (List SetClause)
  | 0, _ => .error "SyntaxError: fuel"
  | fuel + 1, ts =>
    match parseSetClause ts with
    | .error e => .error e
    | .ok (sc, r) =>
      match r with
      | ⟨.COMMA, _⟩ :: r1 =>
        match parseSetClauses fuel r1 with
        | .error e2 => .error e2
        | .ok (scs, r2) => .ok (sc :: scs, r2)
      | _ => .ok ([sc], r)

/-- `Parser.update_statement` after the UPDATE keyword. -/
def parseUpdate (ts : List Token) : PRes UpdateStmt :=
  match ts with
  | ⟨.IDENTIFIER, tname⟩ :: ⟨.SET, _⟩ :: r =>
    match parseSetClauses (r.length + 1) r with
    | .error e => .error e
    | .ok (scs, r1) =>
      match r1 with
      | ⟨.WHERE, _⟩ :: r2 =>
        match parseCond (r2.length + 1) r2 with
        | .error e => .error e
        | .ok (c, r3) => .ok (⟨tname, scs, some c⟩, r3)
      | _ => .ok (⟨tname, scs, none⟩, r1)
  | ⟨.IDENTIFIER, _⟩ :: _ => .error "SyntaxError: Expected SET"
  | _ => .error "SyntaxError: Expected table name"

/-- `Parser.delete_statement` after the DELETE keyword. -/
def parseDelete (ts : List Token) : PRes DeleteStmt :=
  match ts with
  | ⟨.FROM, _⟩ :: ⟨.IDENTIFIER, tname⟩ :: r =>
    match r with
    | ⟨.WHERE, _⟩ :: r1 =>
      match parseCond (r1.length + 1) r1 with
      | .error e => .error e
      | .ok (c, r2) => .ok (⟨tname, some c⟩, r2)
    | _ => .ok (⟨tname, none⟩, r)
  | ⟨.FROM, _⟩ :: _ => .error "SyntaxError: Expected table name"
  | _ => .error "SyntaxError: Expected FROM"

/-- `Parser.column_definition`: identifier node plus a type keyword. -/
def parseColumnDef (ts : List Token) : PRes ColumnDefAst :=
  match ts with
  | ⟨.IDENTIFIER, cname⟩ :: t :: r =>
    if t.type = .INT ∨ t.type = .TEXT ∨ t.type = .FLOAT ∨ t.type = .DATE then
      .ok (⟨.ident cname, t.type⟩, r)
    else .error "SyntaxError: Expected data type"
  | ⟨.IDENTIFIER, _⟩ :: _ => .error "SyntaxError: Expected data type"
  | _ => .error "SyntaxError: Expected column name"

/-- The column-definition list of `Parser.create_statement`. -/
def parseColumnDefs : Nat → List Token → PRes (List ColumnDefAst)
  | 0, _ => .error "SyntaxError: fuel"
  | fuel + 1, ts =>
    match parseColumnDef ts with
    | .error e => .error e
    | .ok (cd, r) =>
      match r with
      | ⟨.COMMA, _⟩ :: r1 =>
        match parseColumnDefs fuel r1 with
        | .error e2 => .error e2
        | .ok (cds, r2) => .ok (cd :: cds, r2)
      | _ => .ok ([cd], r)

/-- `Parser.create_statement` after the CREATE keyword. -/
def parseCreate (ts : List Token) : PRes CreateStmt :=
  match ts with
  | ⟨.TABLE, _⟩ :: ⟨.IDENTIFIER, tname⟩ :: ⟨.LEFT_PAREN, _⟩ :: r =>
    match parseColumnDefs (r.length + 1) r with
    | .error e => .error e
    | .ok (cds, r1) =>
      match r1 with
      | ⟨.RIGHT_PAREN, _⟩ :: r2 => .ok (⟨tname, cds⟩, r2)
      | _ => .error "SyntaxError: Expected RIGHT_PAREN"
  | ⟨.TABLE, _⟩ :: ⟨.IDENTIFIER, _⟩ :: _ =>
    .error "SyntaxError: Expected LEFT_PAREN"
  | ⟨.TABLE, _⟩ :: _ => .error "SyntaxError: Expected table name"
  | _ => .error "SyntaxError: Expected TABLE"

/-- `Parser.drop_statement` after the DROP keyword. -/
def parseDrop (ts : List Token) : PRes DropStmt :=
  match ts with
  | ⟨.TABLE, _⟩ :: ⟨.IDENTIFIER, tname⟩ :: r => .ok (⟨tname⟩, r)
  | ⟨.TABLE, _⟩ :: _ => .error "SyntaxError: Expected table name"
  | _ => .error "SyntaxError: Expected TABLE"

/-- `Parser.parse` / `Parser.sql_statement`: dispatch on the lookahead
keyword.  Returns the statement plus the unconsumed suffix (the Python
parser likewise leaves trailing tokens, e.g. a `;`, unread). -/
def parseStatement (ts : List Token) : PRes Stmt :=
  match ts with
  | ⟨.SELECT, _⟩ :: r =>
    match parseSelect r with
    | .error e => .error e
    | .ok (s, r1) => .ok (.select s, r1)
  | ⟨.INSERT, _⟩ :: r =>
    match parseInsert r with
    | .error e => .error e
    | .ok (s, r1) => .ok (.insert s, r1)
  | ⟨.UPDATE, _⟩ :: r =>
    match parseUpdate r with
    | .error e => .error e
    | .ok (s, r1) => .ok (.update s, r1)
  | ⟨.DELETE, _⟩ :: r =>
    match parseDelete r with
    | .error e => .error e
    | .ok (s, r1) => .ok (.delete s, r1)
  | ⟨.CREATE, _⟩ :: r =>
    match parseCreate r with
    | .error e => .error e
    | .ok (s, r1) => .ok (.create s, r1)
  | ⟨.DROP, _⟩ :: r =>
    match parseDrop r with
    | .error e => .error e
    | .ok (s, r1) => .ok (.drop s, r1)
  | _ => .error "SyntaxError: Unexpected token"

/-! ## Regenerator (`SQLGenerator.generate_*` in `sql_compiler.py`)

`ValueError` raised by `generate_expression` on an unsupported node type
becomes `Except.error`. -/

inductive PyErr where
  | typeErr
  | keyErr (k : String)
  | attrErr
  | indexErr
  | zeroDivErr
  deriving DecidableEq, Repr

inductive Value where
  | none
  | int (n : Int)
  | float (q : ℚ)
  | str (s : String)
  deriving DecidableEq, Repr

/-- Numeric view of a value, when it has one. -/
def Value.toNum : Value → Option ℚ
  | .int n => some (n : ℚ)
  | .float q => some q
  | _ => Option.none

/-- Python `==` over the stored value types: numeric cross-type
equality, same-type equality, `False` across kinds; never raises. -/
def pyEq (a b : Value) : Bool :=
  match a, b with
  | .str x, .str y => x = y
  | .none, .none => true
  | .str _, _ => false
  | _, .str _ => false
  | .none, _ => false
  | _, .none => false
  | a, b =>
    match a.toNum, b.toNum with
    | some x, some y => x = y
    | _, _ => false

/-- Python `<`: numeric/numeric or str/str (code-point lexicographic),
`TypeError` otherwise (including `None`). -/
def pyLt (a b : Value) : Except PyErr Bool :=
  match a, b with
  | .str x, .str y => .ok (decide (x < y))
  | a, b =>
    match a.toNum, b.toNum with
    | some x, some y => .ok (decide (x < y))
    | _, _ => .error .typeErr

/-- Python `>`. -/
def pyGt (a b : Value) : Except PyErr Bool :=
  match a, b with
  | .str x, .str y => .ok (decide (y < x))
  | a, b =>
    match a.toNum, b.toNum with
    | some x, some y => .ok (decide (y < x))
    | _, _ => .error .typeErr

/-- Python `<=`. -/
def pyLe (a b : Value) : Except PyErr Bool :=
  match a, b with
  | .str x, .str y => .ok (decide (x < y ∨ x = y))
  | a, b =>
    match a.toNum, b.toNum with
    | some x, some y => .ok (decide (x ≤ y))
    | _, _ => .error .typeErr

/-- Python `>=`. -/
def pyGe (a b : Value) : Except PyErr Bool :=
  match a, b with
  | .str x, .str y => .ok (decide (y < x ∨ x = y))
  | a, b =>
    match a.toNum, b.toNum with
    | some x, some y => .ok (decide (y ≤ x))
    | _, _ => .error .typeErr

/-- Python truthiness (`bool(...)`) of the stored value types. -/
def pyTruthy : Value → Bool
  | .none => false
  | .int n => n ≠ 0
  | .float q => q ≠ 0
  | .str s => s ≠ ""

/-- Python `+`: int+int stays int, mixed numeric is float, str+str
concatenates, anything else raises `TypeError`. -/
def pyAdd : Value → Value → Except PyErr Value
  | .int x, .int y => .ok (.int (x + y))
  | .int x, .float q => .ok (.float ((x : ℚ) + q))
  | .float q, .int y => .ok (.float (q + (y : ℚ)))
  | .float p, .float q => .ok (.float (p + q))
  | .str x, .str y => .ok (.str (x ++ y))
  | _, _ => .error .typeErr

/-- Python `-`: numeric only. -/
def pySub : Value → Value → Except PyErr Value
  | .int x, .int y => .ok (.int (x - y))
  | .int x, .float q => .ok (.float ((x : ℚ) - q))
  | .float q, .int y => .ok (.float (q - (y : ℚ)))
  | .float p, .float q => .ok (.float (p - q))
  | _, _ => .error .typeErr

/-- Python `*`: numeric multiplication, plus str/int repetition. -/
def pyMul : Value → Value → Except PyErr Value
  | .int x, .int y => .ok (.int (x * y))
  | .int x, .float q => .ok (.float ((x : ℚ) * q))
  | .float q, .int y => .ok (.float (q * (y : ℚ)))
  | .float p, .float q => .ok (.float (p * q))
  | .str s, .int n => .ok (.str (String.join (List.replicate n.toNat s)))
  | .int n, .str s => .ok (.str (String.join (List.replicate n.toNat s)))
  | _, _ => .error .typeErr

/-- Python `/`: true division over numerics (modelled over `ℚ`),
`ZeroDivisionError` on a zero divisor, `TypeError` otherwise. -/
def pyDiv (a b : Value) : Except PyErr Value :=
  match a.toNum, b.toNum with
  | some x, some y => if y = 0 then .error .zeroDivErr else .ok (.float (x / y))
  | _, _ => .error .typeErr

/-! ## Catalog and tables (`database.py`)

`ColumnDef.__init__` annotates `name: str`, but `Database._execute_create`
passes the identifier *node* the parser stored in the COLUMN_DEF's
`name` field; `ColName` captures that dynamic split.  Name lookups call
`col.name.lower()`, which raises `AttributeError` on a node. -/

inductive ColName where
  | text (s : String)
  | node (n : Node)
  deriving DecidableEq, Repr

structure ColumnDef where
  name : ColName
  type : Tok
  deriving DecidableEq, Repr

structure Table where
  name : String
  title : String
  columns : List ColumnDef
  rows : List (List Value)
  deriving DecidableEq, Repr

/-- `Table._validate_type`. -/
def validateType (v : Value) (expected : Tok) : Bool :=
  match v with
  | .none => true
  | v =>
    if expected = .INT then (match v with | .int _ => true | _ => false)
    else if expected = .FLOAT then
      (match v with | .int _ => true | .float _ => true | _ => false)
    else if expected = .TEXT then
      (match v with | .str _ => true | _ => false)
    else if expected = .DATE then
      (match v with | .str _ => true | _ => false)
    else false

/-- `Table.add_row`: arity check, per-column type validation, append. -/
def Table.addRow (t : Table) (values : List Value) : Table × Bool :=
  if values.length ≠ t.columns.length then (t, false)
  else if (t.columns.zip values).all (fun p => validateType p.2 p.1.type) then
    ({ t with rows := t.rows ++ [values] }, true)
  else (t, false)

/-- The loop of `Table.get_column_index`: first case-insensitive match,
`None` for Python's `-1` sentinel; `col.name.lower()` on a node column
name raises `AttributeError`. -/
def getColIdx (target : String) : List ColumnDef → Nat → Except PyErr (Option Nat)
  | [], _ => .ok Option.none
  | c :: cs, i =>
    match c.name with
    | .text s =>
      if (lowerStr s) = (lowerStr target) then .ok (some i)
      else getColIdx target cs (i + 1)
    | .node _ => .error .attrErr

/-- `Table.get_column_index`. -/
def Table.colIdx (t : Table) (name : String) : Except PyErr (Option Nat) :=
  getColIdx name t.columns 0

/-- The catalog: `Database.tables`, a dict keyed by lower-cased table
name in insertion order. -/
structure Database where
  tables : List (String × Table)
  deriving DecidableEq, Repr

/-- `Database.get_table`. -/
def Database.getTable (db : Database) (name : String) : Option Table :=
  db.tables.lookup (lowerStr name)

/-- `Database.create_table`. -/
def Database.createTable (db : Database) (name : String)
    (columns : List ColumnDef) (title : Option String) : Database × Bool :=
  if (db.tables.lookup (lowerStr name)).isSome then (db, false)
  else
    (⟨db.tables ++ [((lowerStr name), ⟨name, title.getD name, columns, []⟩)]⟩,
      true)

/-- `Database.drop_table`. -/
def Database.dropTable (db : Database) (name : String) : Database × Bool :=
  if (db.tables.lookup (lowerStr name)).isSome then
    (⟨db.tables.filter (fun p => p.1 ≠ (lowerStr name))⟩, true)
  else (db, false)

/-- In-place mutation of the table object reached through the dict:
replace the value stored under `key`. -/
def Database.setTable (db : Database) (key : String) (t : Table) : Database :=
  ⟨db.tables.map (fun p => if p.1 = key then (p.1, t) else p)⟩

/-! ## Expression and condition evaluation (`database.py`) -/

/-- Value of a literal node (`expr.data['value']`). -/
def litValue : Lit → Value
  | .int n => .int n
  | .float f => .float f.toRat
  | .str s => .str s
  | .null => .none

/-- `Database._evaluate_expression`.  An identifier resolves through the
row when a table and a *non-empty* row are supplied (`if table and row:`
— an empty row list is falsy) and otherwise evaluates to its own name;
a CONDITION node in expression position hits the `Unsupported expression
type` print-and-return-None fallback. -/
def evalExpr (tbl : Option Table) (row : Option (List Value)) :
    Node → Except PyErr Value
  | .ident name =>
    match tbl, row with
    | some t, some r =>
      if r.isEmpty then .ok (.str name)
      else
        match t.colIdx name with
        | .error e => .error e
        | .ok (some i) =>
          match r[i]? with
          | some v => .ok v
          | Option.none => .error .indexErr
        | .ok Option.none => .ok (.str name)
    | _, _ => .ok (.str name)
  | .lit v => .ok (litValue v)
  | .expr op l r =>
    match evalExpr tbl row l with
    | .error e => .error e
    | .ok lv =>
      if op = .DOT then
        match pyAdd lv (.str ".") with
        | .error e => .error e
        | .ok lv' =>
          match evalExpr tbl row r with
          | .error e => .error e
          | .ok rv => pyAdd lv' rv
      else
        match evalExpr tbl row r with
        | .error e => .error e
        | .ok rv =>
          if op = .PLUS then pyAdd lv rv
          else if op = .MINUS then pySub lv rv
          else if op = .ASTERISK then pyMul lv rv
          else if op = .DIVIDE then pyDiv lv rv
          else .ok .none
  | .cond _ _ _ => .ok .none

/-- `Database._evaluate_condition`.  AND/OR short-circuit (Python's
`and`/`or`), NOT negates its `right` operand, any other operator falls
into the compare branch which evaluates both sides and returns `False`
for an operator outside the six comparisons; a non-CONDITION node is
evaluated as an expression and coerced by truthiness. -/
def evalCond (t : Table) (row : List Value) : Node → Except PyErr Bool
  | .cond op l r =>
    if op = .AND then
      match evalCond t row l with
      | .error e => .error e
      | .ok b => if b then evalCond t row r else .ok false
    else if op = .OR then
      match evalCond t row l with
      | .error e => .error e
      | .ok b => if b then .ok true else evalCond t row r
    else if op = .NOT then
      match evalCond t row r with
      | .error e => .error e
      | .ok b => .ok (!b)
    else
      match evalExpr (some t) (some row) l with
      | .error e => .error e
      | .ok lv =>
        match evalExpr (some t) (some row) r with
        | .error e => .error e
        | .ok rv =>
          if op = .EQUALS then .ok (pyEq lv rv)
          else if op = .NOT_EQUALS then .ok (!pyEq lv rv)
          else if op = .GREATER then pyGt lv rv
          else if op = .LESS then pyLt lv rv
          else if op = .GREATER_EQUALS then pyGe lv rv
          else if op = .LESS_EQUALS then pyLe lv rv
          else .ok false
  | n =>
    match evalExpr (some t) (some row) n with
    | .error e => .error e
    | .ok v => .ok (pyTruthy v)

/-! ## Executor (`Database._execute_*`)

Each executor returns the catalog as left behind (mutations before an
exception persist, exactly as for the in-place Python mutations) paired
with the outcome: `Except.error` for a propagating exception, otherwise
the function's boolean result (plus the printed row count where one is
reported). -/

/-- `node.data['name']`: only IDENTIFIER nodes carry a `name` field;
every other node raises `KeyError: 'name'`. -/
def dataName : Node → Except PyErr String
  | .ident n => .ok n
  | _ => .error (.keyErr "name")

/-- The column-name resolution loop shared by `_execute_select` and
`_execute_insert`: `data['name']` then `get_column_index`; an unknown
name prints an error and makes the statement return `False` (`Option.none`
here). -/
def resolveCols (t : Table) : List Node → Except PyErr (Option (List Nat))
  | [] => .ok (some [])
  | c :: cs =>
    match dataName c with
    | .error e => .error e
    | .ok cname =>
      match t.colIdx cname with
      | .error e => .error e
      | .ok Option.none => .ok Option.none
      | .ok (some i) =>
        match resolveCols t cs with
        | .error e => .error e
        | .ok Option.none => .ok Option.none
        | .ok (some is) => .ok (some (i :: is))

/-- The row filter of `_execute_select` for a present WHERE clause. -/
def filterGo (t : Table) (c : Node) : List (List Value) →
    Except PyErr (List (List Value))
  | [] => .ok []
  | r :: rs =>
    match evalCond t r c with
    | .error e => .error e
    | .ok true =>
      match filterGo t c rs with
      | .error e => .error e
      | .ok ks => .ok (r :: ks)
    | .ok false => filterGo t c rs

/-- Row filtering of `_execute_select`: every row is kept when no WHERE
clause is present. -/
def filterRows (t : Table) (wc : Option Node) (rows : List (List Value)) :
    Except PyErr (List (List Value)) :=
  match wc with
  | Option.none => .ok rows
  | some c => filterGo t c rows

/-- The header comprehension of `Table.print_table`:
`self.columns[i].name` for each selected index (IndexError on a bad
index). -/
def headerCols (t : Table) : List Nat → Except PyErr (List ColName)
  | [] => .ok []
  | i :: is =>
    match t.columns[i]? with
    | Option.none => .error .indexErr
    | some c =>
      match headerCols t is with
      | .error e => .error e
      | .ok ns => .ok (c.name :: ns)

/-- `" | ".join(header)`: raises `TypeError` at the first non-string
element. -/
def joinHeaders : List ColName → Except PyErr (List String)
  | [] => .ok []
  | .text s :: ns =>
    match joinHeaders ns with
    | .error e => .error e
    | .ok ss => .ok (s :: ss)
  | .node _ :: _ => .error .typeErr

/-- The row-printing projection of `Table.print_table`: `row[i]` for
each selected index (string conversion itself cannot fail and is not
modelled). -/
def projRow (r : List Value) : List Nat → Except PyErr (List Value)
  | [] => .ok []
  | i :: is =>
    match r[i]? with
    | Option.none => .error .indexErr
    | some v =>
      match projRow r is with
      | .error e => .error e
      | .ok vs => .ok (v :: vs)

/-- All rows, projected in order. -/
def projRows (sel : List Nat) : List (List Value) →
    Except PyErr (List (List Value))
  | [] => .ok []
  | r :: rs =>
    match projRow r sel with
    | .error e => .error e
    | .ok pr =>
      match projRows sel rs with
      | .error e => .error e
      | .ok prs => .ok (pr :: prs)

/-- `Database._execute_select`.  Reads only; the printed output
(headers, projected rows, count) is computed because its exceptions
propagate. -/
def execSelect (db : Database) (s : SelectStmt) : Except PyErr Bool :=
  match s.tables with
  | [] => .ok false
  | tname :: _ =>
    match db.getTable tname with
    | Option.none => .ok false
    | some t =>
      match s.columns with
      | [] => .error .indexErr
      | c0 :: _ =>
        match dataName c0 with
        | .error e => .error e
        | .ok n0 =>
          match (if n0 = "*" then .ok (some (List.range t.columns.length))
            else resolveCols t s.columns : Except PyErr (Option (List Nat))) with
          | .error e => .error e
          | .ok Option.none => .ok false
          | .ok (some sel) =>
            match filterRows t s.whereClause t.rows with
            | .error e => .error e
            | .ok frows =>
              match headerCols t sel with
              | .error e => .error e
              | .ok hdr =>
                match joinHeaders hdr with
                | .error e => .error e
                | .ok _ =>
                  match projRows sel frows with
                  | .error e => .error e
                  | .ok _ => .ok true

/-- The named-insert fill loop of `_execute_insert`: a `None`-initialised
full-width buffer, written at each resolved index with its value
expression evaluated without a row context (the `i < len(values)` guard
makes surplus indices no-ops and surplus values ignored, i.e. the loop
runs over the zip). -/
def fillVals (buf : List Value) : List (Nat × Node) →
    Except PyErr (List Value)
  | [] => .ok buf
  | (i, vexpr) :: rest =>
    match evalExpr Option.none Option.none vexpr with
    | .error e => .error e
    | .ok v => fillVals (buf.set i v) rest

/-- `Database._execute_insert`. -/
def execInsert (db : Database) (s : InsertStmt) :
    Database × Except PyErr Bool :=
  match db.getTable s.table with
  | Option.none => (db, .ok false)
  | some t =>
    if s.columns.isEmpty then
      match s.values.mapM (evalExpr Option.none Option.none) with
      | .error e => (db, .error e)
      | .ok vals =>
        let (t', ok) := t.addRow vals
        if ok then (db.setTable (lowerStr s.table) t', .ok true)
        else (db, .ok false)
    else
      match resolveCols t s.columns with
      | .error e => (db, .error e)
      | .ok Option.none => (db, .ok false)
      | .ok (some idxs) =>
        match fillVals (List.replicate t.columns.length Value.none)
            (idxs.zip s.values) with
        | .error e => (db, .error e)
        | .ok vals =>
          let (t', ok) := t.addRow vals
          if ok then (db.setTable (lowerStr s.table) t', .ok true)
          else (db, .ok false)

/-- The SET-clause pre-resolution loop of `_execute_update`: resolve the
column index (unknown prints and returns `False`; a node-named column
raises), then evaluate the right-hand side once, without a row
context. -/
def resolveSets (t : Table) : List SetClause →
    Except PyErr (Option (List (Nat × Value)))
  | [] => .ok (some [])
  | sc :: scs =>
    match t.colIdx sc.left with
    | .error e => .error e
    | .ok Option.none => .ok Option.none
    | .ok (some i) =>
      match evalExpr Option.none Option.none sc.right with
      | .error e => .error e
      | .ok v =>
        match resolveSets t scs with
        | .error e => .error e
        | .ok Option.none => .ok Option.none
        | .ok (some rest) => .ok (some ((i, v) :: rest))

/-- `row[col_idx] = value` for each resolved assignment; on an
out-of-range index the row keeps the assignments already applied and
`IndexError` propagates. -/
def applySets : List (Nat × Value) → List Value →
    List Value × Except PyErr Unit
  | [], row => (row, .ok ())
  | (i, v) :: rest, row =>
    if i < row.length then applySets rest (row.set i v)
    else (row, .error .indexErr)

/-- The row scan of `_execute_update`: each row matching the optional
WHERE clause is mutated in place; an exception leaves the rows already
visited in their mutated state. -/
def updateGo (t : Table) (wc : Option Node) (sets : List (Nat × Value)) :
    List (List Value) → List (List Value) × Except PyErr Nat
  | [] => ([], .ok 0)
  | r :: rs =>
    match (match wc with
      | Option.none => .ok true
      | some c => evalCond t r c : Except PyErr Bool) with
    | .error e => (r :: rs, .error e)
    | .ok true =>
      match applySets sets r with
      | (r', .error e) => (r' :: rs, .error e)
      | (r', .ok _) =>
        let (rs', res) := updateGo t wc sets rs
        (r' :: rs', res.map (· + 1))
    | .ok false =>
      let (rs', res) := updateGo t wc sets rs
      (r :: rs', res)

/-- `Database._execute_update`: returns the catalog as left behind and,
on success, the printed updated-row count. -/
def execUpdate (db : Database) (s : UpdateStmt) :
    Database × Except PyErr (Bool × Nat) :=
  match db.getTable s.table with
  | Option.none => (db, .ok (false, 0))
  | some t =>
    match resolveSets t s.setClauses with
    | .error e => (db, .error e)
    | .ok Option.none => (db, .ok (false, 0))
    | .ok (some sets) =>
      match updateGo t s.whereClause sets t.rows with
      | (rows', .error e) =>
        (db.setTable (lowerStr s.table) { t with rows := rows' }, .error e)
      | (rows', .ok n) =>
        (db.setTable (lowerStr s.table) { t with rows := rows' }, .ok (true, n))

/-- The partition loop of `_execute_delete`: a row is kept exactly when
a WHERE clause is present and evaluates false; without WHERE every row
is deleted.  Returns (kept rows, deleted count). -/
def deleteGo (t : Table) (wc : Option Node) :
    List (List Value) → Except PyErr (List (List Value) × Nat)
  | [] => .ok ([], 0)
  | r :: rs =>
    match wc with
    | Option.none =>
      match deleteGo t wc rs with
      | .error e => .error e
      | .ok (ks, n) => .ok (ks, n + 1)
    | some c =>
      match evalCond t r c with
      | .error e => .error e
      | .ok false =>
        match deleteGo t wc rs with
        | .error e => .error e
        | .ok (ks, n) => .ok (r :: ks, n)
      | .ok true =>
        match deleteGo t wc rs with
        | .error e => .error e
        | .ok (ks, n) => .ok (ks, n + 1)

/-- `Database._execute_delete`: the table's row storage is replaced only
after the whole scan, so an exception leaves the catalog untouched.  On
success, also returns the printed deleted-row count. -/
def execDelete (db : Database) (s : DeleteStmt) :
    Database × Except PyErr (Bool × Nat) :=
  match db.getTable s.table with
  | Option.none => (db, .ok (false, 0))
  | some t =>
    match deleteGo t s.whereClause t.rows with
    | .error e => (db, .error e)
    | .ok (kept, n) =>
      (db.setTable (lowerStr s.table) { t with rows := kept }, .ok (true, n))

/-- `Database._execute_create`: the COLUMN_DEF's `name` *node* is stored
into `ColumnDef.name` unchanged. -/
def execCreate (db : Database) (s : CreateStmt) : Database × Bool :=
  db.createTable s.table
    (s.columns.map (fun c => ⟨.node c.name, c.dataType⟩)) Option.none

/-- `Database._execute_drop`. -/
def execDrop (db : Database) (s : DropStmt) : Database × Bool :=
  db.dropTable s.table

/-- `Database.execute_query`: dispatch on the statement kind. -/
def execQuery (st : Stmt) (db : Database) : Database × Except PyErr Bool :=
  match st with
  | .select s => (db, execSelect db s)
  | .insert s => execInsert db s
  | .update s =>
    match execUpdate db s with
    | (db', .error e) => (db', .error e)
    | (db', .ok (b, _)) => (db', .ok b)
  | .delete s =>
    match execDelete db s with
    | (db', .error e) => (db', .error e)
    | (db', .ok (b, _)) => (db', .ok b)
  | .create s =>
    match execCreate db s with
    | (db', b) => (db', .ok b)
  | .drop s =>
    match execDrop db s with
    | (db', b) => (db', .ok b)

/-! ## Derived predicates used by the claims -/

/-- The §3 table invariant: every stored value's runtime type matches
its column's declared type (exactly `_validate_type`'s predicate). -/
def rowTypesOk (cols : List ColumnDef) (row : List Value) : Bool :=
  (cols.zip row).all (fun p => validateType p.2 p.1.type)

/-- The invariant over a whole catalog. -/
def typeOk (db : Database) : Bool :=
  db.tables.all (fun p => p.2.rows.all (rowTypesOk p.2.columns))

/-- A condition node whose operator is a boolean connective. -/
def isConnCond : Node → Bool
  | .cond op _ _ => op = .AND || op = .OR
  | _ => false

/-- Right-associated boolean structure: no AND/OR condition has an
AND/OR condition as its left operand. -/
def rightAssoc : Node → Bool
  | .cond op l r =>
    rightAssoc l && rightAssoc r &&
      (!(op = .AND || op = .OR) || !isConnCond l)
  | .expr _ l r => rightAssoc l && rightAssoc r
  | _ => true

/-- No node carries the NOT operator. -/
def noNot : Node → Bool
  | .cond op l r => !(op = .NOT) && noNot l && noNot r
  | .expr op l r => !(op = .NOT) && noNot l && noNot r
  | _ => true

/-- `noNot` over an optional WHERE clause. -/
def noNotOpt : Option Node → Bool
  | Option.none => true
  | some c => noNot c

/-- No condition/expression node anywhere in a statement carries the
NOT operator. -/
def noNotStmt : Stmt → Bool
  | .select s =>
    s.columns.all noNot && s.joins.all (fun j => noNot j.onCond) &&
      noNotOpt s.whereClause
  | .insert s => s.columns.all noNot && s.values.all noNot
  | .update s =>
    s.setClauses.all (fun sc => noNot sc.right) && noNotOpt s.whereClause
  | .delete s => noNotOpt s.whereClause
  | .create s => s.columns.all (fun c => noNot c.name)
  | .drop _ => true

/-! ## The render-safe grammar fragment

`goodStmt` describes the ASTs of §4.2's grammar restricted as the C1
counterexample forces: every CONDITION node's operands are plain
expressions (an AND/OR whose operand is itself a CONDITION makes
`generate_expression` raise `ValueError`), and string literals contain
no apostrophe (the renderer's unescaped `'...'` quoting) and no NUL.
All other shapes reachable by the parser are included: identifiers are
exactly the non-keyword lexemes the lexer can produce, integers are the
non-negative values of digit runs, floats are in the parse normal
form. -/

/-- A catalog with one `INT` column holding an integer row. -/
def c2Db : Database :=
  ⟨[("t", ⟨"t", "t", [⟨.text "a", .INT⟩], [[.int 1]]⟩)]⟩

/-- A two-column table with no rows. -/
def c3T : Table := ⟨"t", "t", [⟨.text "a", .INT⟩, ⟨.text "b", .INT⟩], []⟩

def c3Db : Database := ⟨[("t", c3T)]⟩

def c3Ins : InsertStmt := ⟨"t", [.ident "a", .ident "b"], [.lit (.int 1)]⟩

/-- A count-mismatched named insert whose supplied value fails the INT
column's type validation. -/
def c3BadIns : InsertStmt := ⟨"t", [.ident "a", .ident "b"], [.lit (.str "x")]⟩

/-- A table whose second row makes `a < 2` raise `TypeError`. -/
def c4Db : Database :=
  ⟨[("t", ⟨"t", "t", [⟨.text "a", .INT⟩], [[.int 1], [.none]]⟩)]⟩

def c4Del : DeleteStmt :=
  ⟨"t", some (.cond .LESS (.ident "a") (.lit (.int 2)))⟩

def c6Db : Database :=
  ⟨[("t", ⟨"t", "t", [⟨.text "a", .INT⟩], [[.int 1], [.int 2]]⟩)]⟩

def c6Del : DeleteStmt :=
  ⟨"t", some (.cond .EQUALS (.ident "a") (.lit (.int 1)))⟩

/-! ## Claim C9 -/

def c9Db : Database :=
  ⟨[("t", ⟨"t", "t", [⟨.text "a", .INT⟩], [[.int 1]]⟩)]⟩

def c9Sel : SelectStmt :=
  ⟨[.lit (.int 1)], ["t"], [], Option.none⟩

/-- `Database._evaluate_condition` with the NOT branch replaced by a
sentinel error, used to express that the NOT branch is unreachable from
parser-produced ASTs (only the spec's claimed behaviour differs there). -/
def evalCondNoNot (t : Table) (row : List Value) : Node → Except PyErr Bool
  | .cond op l r =>
    if op = .AND then
      match evalCondNoNot t row l with
      | .error e => .error e
      | .ok b => if b then evalCondNoNot t row r else .ok false
    else if op = .OR then
      match evalCondNoNot t row l with
      | .error e => .error e
      | .ok b => if b then .ok true else evalCondNoNot t row r
    else if op = .NOT then .error .attrErr
    else
      match evalExpr (some t) (some row) l with
      | .error e => .error e
      | .ok lv =>
        match evalExpr (some t) (some row) r with
        | .error e => .error e
        | .ok rv =>
          if op = .EQUALS then .ok (pyEq lv rv)
          else if op = .NOT_EQUALS then .ok (!pyEq lv rv)
          else if op = .GREATER then pyGt lv rv
          else if op = .LESS then pyLt lv rv
          else if op = .GREATER_EQUALS then pyGe lv rv
          else if op = .LESS_EQUALS then pyLe lv rv
          else .ok false
  | n =>
    match evalExpr (some t) (some row) n with
    | .error e => .error e
    | .ok v => .ok (pyTruthy v)

/-! ## Digit lemmas -/

theorem normFloat_norm : ∀ m e, (normFloat m e).norm := by
  intro m e
  induction e using Nat.strong_induction_on generalizing m with
  | _ e ih =>
    match e with
    | 0 => exact ⟨le_rfl, Or.inl rfl⟩
    | 1 => exact ⟨le_rfl, Or.inl rfl⟩
    | e + 2 =>
      unfold normFloat
      split
      · exact ih (e + 1) (by omega) (m / 10)
      · constructor
        · show 1 ≤ e + 2
          omega
        · exact Or.inr (by assumption)

theorem digit_val {c : Char} (h : c.isDigit = true) :
    48 ≤ c.val.toNat ∧ c.val.toNat ≤ 57 := by
  simp [Char.isDigit, Char.le_def] at h
  exact ⟨h.1, h.2⟩

theorem alpha_val {c : Char} (h : c.isAlpha = true) :
    (65 ≤ c.val.toNat ∧ c.val.toNat ≤ 90) ∨
      (97 ≤ c.val.toNat ∧ c.val.toNat ≤ 122) := by
  simp [Char.isAlpha, Char.isUpper, Char.isLower, Char.le_def] at h
  rcases h with h | h
  · exact Or.inl ⟨h.1, h.2⟩
  · exact Or.inr ⟨h.1, h.2⟩

theorem isIdentStart_eq_false_of_le {c : Char} (h : c.val.toNat ≤ 57) :
    isIdentStart c = false := by
  have h1 : c.isAlpha = false := by
    rcases ha : c.isAlpha with _ | _
    · rfl
    · rcases alpha_val ha with hr | hr <;> omega
  have h2 : c ≠ '_' := fun he => by subst he; exact absurd h (by decide)
  simp [isIdentStart, h1, h2]

theorem numRun_cons_digit {c : Char} {cs : List Char} {f : Bool}
    (h : c.isDigit = true) :
    numRun (c :: cs) f = (c :: (numRun cs f).1, (numRun cs f).2) := by
  conv_lhs => unfold numRun
  rw [if_pos h]

theorem data_star : ("*" : String).data = ['*'] := rfl

theorem okCongr {a b : String} (h : a = b) :
    (Except.ok a : Except String String) = .ok b := by rw [h]

/-- After `setTable` on an existing key, lookups of that key see the new
table. -/
theorem lookup_setTable : ∀ (l : List (String × Table)) (key : String)
    (t t' : Table), l.lookup key = some t →
    (l.map (fun p => if p.1 = key then (p.1, t') else p)).lookup key =
      some t' := by
  intro l key t t' h
  induction l with
  | nil => simp [List.lookup] at h
  | cons p l ih =>
    obtain ⟨k, tb⟩ := p
    rw [List.lookup] at h
    cases hbe : (key == k) with
    | true =>
      have hk : k = key := (eq_of_beq hbe).symm
      subst hk
      show (List.map (fun p => if p.1 = k then (p.1, t') else p)
        ((k, tb) :: l)).lookup k = some t'
      rw [List.map_cons]
      rw [show (if ((k, tb) : String × Table).1 = k
        then (((k, tb) : String × Table).1, t') else (k, tb)) = (k, t')
        from if_pos rfl]
      simp [List.lookup]
    | false =>
      rw [hbe] at h
      have hk : ¬(k = key) := fun he => by
        subst he
        simp at hbe
      simp only [List.map_cons, if_neg hk]
      rw [List.lookup, hbe]
      exact ih h

/-- `getTable` after `setTable` under the looked-up key. -/
theorem getTable_setTable {db : Database} {name : String} {t : Table}
    (h : db.getTable name = some t) (t' : Table) :
    (db.setTable (lowerStr name) t').getTable name = some t' := by
  obtain ⟨l⟩ := db
  exact lookup_setTable l (lowerStr name) t t' h

/-- A looked-up table of a `typeOk` catalog has well-typed rows. -/
theorem typeOk_getTable : ∀ {l : List (String × Table)} {name : String}
    {t : Table}, l.all (fun p => p.2.rows.all (rowTypesOk p.2.columns)) =
      true → l.lookup name = some t →
    t.rows.all (rowTypesOk t.columns) = true := by
  intro l
  induction l with
  | nil => intro name t _ h; simp [List.lookup] at h
  | cons p l ih =>
    intro name t hall h
    obtain ⟨k, tb⟩ := p
    rw [List.all_cons, Bool.and_eq_true] at hall
    rw [List.lookup] at h
    cases hbe : (name == k) with
    | true =>
      rw [hbe] at h
      cases h
      exact hall.1
    | false =>
      rw [hbe] at h
      exact ih hall.2 h

/-- `setTable` with a well-typed table preserves the catalog
invariant. -/
theorem typeOk_setTable {db : Database} {key : String} {t' : Table}
    (h : typeOk db = true)
    (ht' : t'.rows.all (rowTypesOk t'.columns) = true) :
    typeOk (db.setTable key t') = true := by
  obtain ⟨l⟩ := db
  unfold typeOk at h ⊢
  unfold Database.setTable
  show (List.map (fun p => if p.1 = key then (p.1, t') else p) l).all
    (fun p => p.2.rows.all (rowTypesOk p.2.columns)) = true
  rw [List.all_map]
  rw [List.all_eq_true] at h ⊢
  intro p hp
  simp only [Function.comp]
  by_cases hk : p.1 = key
  · rw [if_pos hk]
    exact ht'
  · rw [if_neg hk]
    exact h p hp

/-- Rows kept by the delete scan all come from the original rows. -/
theorem deleteGo_keeps {t : Table} {wc : Option Node}
    (P : List Value → Bool) : ∀ (rows ks : List (List Value)) (n : Nat),
    deleteGo t wc rows = .ok (ks, n) → rows.all P = true →
    ks.all P = true := by
  intro rows
  induction rows with
  | nil =>
    intro ks n h _
    cases wc with
    | none => cases h; rfl
    | some c => cases h; rfl
  | cons r rs ih =>
    intro ks n h hall
    rw [List.all_cons, Bool.and_eq_true] at hall
    cases wc with
    | none =>
      rw [show deleteGo t Option.none (r :: rs) =
        (match deleteGo t Option.none rs with
        | .error e => .error e
        | .ok (ks, n) => .ok (ks, n + 1)) from rfl] at h
      cases hd : deleteGo t Option.none rs with
      | error e => rw [hd] at h; cases h
      | ok p =>
        obtain ⟨ks2, n2⟩ := p
        rw [hd] at h
        cases h
        exact ih _ _ hd hall.2
    | some c =>
      rw [show deleteGo t (some c) (r :: rs) =
        (match evalCond t r c with
        | .error e => .error e
        | .ok false =>
          match deleteGo t (some c) rs with
          | .error e => .error e
          | .ok (ks, n) => .ok (r :: ks, n)
        | .ok true =>
          match deleteGo t (some c) rs with
          | .error e => .error e
          | .ok (ks, n) => .ok (ks, n + 1)) from rfl] at h
      cases hc : evalCond t r c with
      | error e => rw [hc] at h; cases h
      | ok b =>
        rw [hc] at h
        cases b with
        | true =>
          cases hd : deleteGo t (some c) rs with
          | error e => rw [hd] at h; cases h
          | ok p =>
            obtain ⟨ks2, n2⟩ := p
            rw [hd] at h
            cases h
            exact ih _ _ hd hall.2
        | false =>
          cases hd : deleteGo t (some c) rs with
          | error e => rw [hd] at h; cases h
          | ok p =>
            obtain ⟨ks2, n2⟩ := p
            rw [hd] at h
            cases h
            rw [List.all_cons, Bool.and_eq_true]
            exact ⟨hall.1, ih _ _ hd hall.2⟩

theorem all_of_filter {α : Type} (p q : α → Bool) {l : List α}
    (h : l.all q = true) : (l.filter p).all q = true := by
  rw [List.all_eq_true] at h ⊢
  intro x hx
  exact h x (List.mem_of_mem_filter hx)

/-- `add_row` only ever appends a row that passes `_validate_type`. -/
theorem addRow_typeOk {t : Table} {vals : List Value} {t' : Table}
    {ok : Bool} (h : t.addRow vals = (t', ok))
    (htr : t.rows.all (rowTypesOk t.columns) = true) :
    t'.rows.all (rowTypesOk t'.columns) = true := by
  unfold Table.addRow at h
  split at h
  · cases h
    exact htr
  · split at h
    · cases h
      rename_i harity htypes
      simp only [List.all_append, htr, Bool.true_and]
      simp only [List.all_cons, List.all_nil, Bool.and_true]
      exact htypes
    · cases h
      exact htr

/-- The shared `add_row`-then-store tail of `_execute_insert` keeps the
catalog invariant. -/
theorem insertTail_typeOk {db : Database} {key : String} {t : Table}
    (vals : List Value) (h : typeOk db = true)
    (htr : t.rows.all (rowTypesOk t.columns) = true) :
    typeOk ((match t.addRow vals with
      | (t', ok) =>
        if ok = true then (db.setTable key t', Except.ok true)
        else ((db, Except.ok false) : Database × Except PyErr Bool)).1) =
      true := by
  cases ha : t.addRow vals with
  | mk t' ok =>
    cases ok with
    | true =>
      show typeOk (db.setTable key t') = true
      exact typeOk_setTable h (addRow_typeOk ha htr)
    | false => exact h

/-! ## Claim C2 -/

/-- C2: every statement other than UPDATE preserves the catalog type
invariant `typeOk` (stored values match their column's declared type,
`_validate_type`'s predicate, `None` always allowed).  The unrestricted
claim is false: `_execute_update` writes SET values without any type
validation, and `C2_update_breaks_invariant` shows an UPDATE storing a
text value into an INT column. -/
theorem C2_type_invariant {st : Stmt} {db : Database}
    (h : typeOk db = true) (hnu : ∀ u, st ≠ Stmt.update u) :
    typeOk (execQuery st db).1 = true := by
  cases st with
  | update u => exact absurd rfl (hnu u)
  | select s => exact h
  | insert s =>
    show typeOk (execInsert db s).1 = true
    unfold execInsert
    cases hg : db.getTable s.table with
    | none => exact h
    | some t =>
      have htr : t.rows.all (rowTypesOk t.columns) = true :=
        typeOk_getTable h hg
      show typeOk ((if s.columns.isEmpty = true then
          match s.values.mapM (evalExpr Option.none Option.none) with
          | Except.error e => (db, Except.error e)
          | Except.ok vals =>
            match t.addRow vals with
            | (t', ok) =>
              if ok = true then
                (db.setTable (lowerStr s.table) t', Except.ok true)
              else (db, Except.ok false)
        else
          match resolveCols t s.columns with
          | Except.error e => (db, Except.error e)
          | Except.ok Option.none => (db, Except.ok false)
          | Except.ok (some idxs) =>
            match fillVals (List.replicate t.columns.length Value.none)
                (idxs.zip s.values) with
            | Except.error e => (db, Except.error e)
            | Except.ok vals =>
              match t.addRow vals with
              | (t', ok) =>
                if ok = true then
                  (db.setTable (lowerStr s.table) t', Except.ok true)
                else (db, Except.ok false)) :
        Database × Except PyErr Bool).1 = true
      split
      · split
        · exact h
        · exact insertTail_typeOk _ h htr
      · split
        · exact h
        · exact h
        · split
          · exact h
          · exact insertTail_typeOk _ h htr
  | delete s =>
    show typeOk (match execDelete db s with
      | (db', .error e) => (db', Except.error e)
      | (db', .ok (b, _)) => (db', Except.ok b)).1 = true
    unfold execDelete
    cases hg : db.getTable s.table with
    | none => exact h
    | some t =>
      have htr : t.rows.all (rowTypesOk t.columns) = true :=
        typeOk_getTable h hg
      show typeOk ((match (match deleteGo t s.whereClause t.rows with
        | Except.error e => (db, Except.error e)
        | Except.ok (kept, n) =>
          (db.setTable (lowerStr s.table) { t with rows := kept },
            Except.ok (true, n))) with
        | (db', Except.error e) => (db', Except.error e)
        | (db', Except.ok (b, _)) => (db', Except.ok b)).1) = true
      cases hd : deleteGo t s.whereClause t.rows with
      | error e => exact h
      | ok p =>
        obtain ⟨kept, n⟩ := p
        show typeOk
          (db.setTable (lowerStr s.table) { t with rows := kept }) = true
        exact typeOk_setTable h
          (show ({ t with rows := kept } : Table).rows.all
              (rowTypesOk ({ t with rows := kept } : Table).columns) = true
            from deleteGo_keeps (rowTypesOk t.columns) t.rows kept n hd htr)
  | create s =>
    show typeOk (execCreate db s).1 = true
    unfold execCreate Database.createTable
    split
    · exact h
    · unfold typeOk at h ⊢
      simp only [List.all_append, h, Bool.true_and]
      rfl
  | drop s =>
    show typeOk (execDrop db s).1 = true
    unfold execDrop Database.dropTable
    split
    · unfold typeOk at h ⊢
      exact all_of_filter _ _ h
    · exact h

theorem C2_type_invariant_witness :
    typeOk c2Db = true ∧ (∀ u, Stmt.delete ⟨"t", Option.none⟩ ≠ Stmt.update u) ∧
    typeOk (execQuery (Stmt.delete ⟨"t", Option.none⟩) c2Db).1 = true :=
  ⟨by decide, fun u h => Stmt.noConfusion h,
    C2_type_invariant (by decide) (fun u h => Stmt.noConfusion h)⟩

/-- C2 counterexample: `UPDATE t SET a = 'x'` succeeds and leaves a text
value in the `INT` column, breaking the invariant. -/
theorem C2_update_breaks_invariant :
    typeOk c2Db = true ∧
    execQuery (Stmt.update ⟨"t", [⟨"a", .lit (.str "x")⟩], Option.none⟩)
      c2Db =
      (⟨[("t", ⟨"t", "t", [⟨.text "a", .INT⟩], [[.str "x"]]⟩)]⟩, .ok true) ∧
    typeOk (execQuery
      (Stmt.update ⟨"t", [⟨"a", .lit (.str "x")⟩], Option.none⟩) c2Db).1 =
      false := by
  refine ⟨by decide, by decide, by decide⟩

/-! ## Claim C3 -/

/-- The named-insert fill loop always returns a buffer-width row. -/
theorem C3_fill_width : ∀ (l : List (Nat × Node)) (buf vals : List Value),
    fillVals buf l = .ok vals → vals.length = buf.length := by
  intro l
  induction l with
  | nil => intro buf vals h; cases h; rfl
  | cons p l ih =>
    intro buf vals h
    obtain ⟨i, vexpr⟩ := p
    rw [show fillVals buf ((i, vexpr) :: l) =
      (match evalExpr Option.none Option.none vexpr with
      | .error e => .error e
      | .ok v => fillVals (buf.set i v) l) from rfl] at h
    cases he : evalExpr Option.none Option.none vexpr with
    | error e => rw [he] at h; cases h
    | ok v =>
      rw [he] at h
      have hl := ih (buf.set i v) vals h
      rw [hl, List.length_set]

/-- C3: a named-column INSERT whose value count differs from the column
count does not fail on the mismatch: the fill buffer is always
column-count wide (missing values stay `None`, surplus values are
dropped by the zip), `add_row`'s arity check always passes, and —
provided every named column resolves (`hres`) and the filled row passes
`add_row`'s per-column type validation (`htypes`) — exactly one row is
appended.  Without those side conditions the statement returns `False`
with the rows unchanged, but never because of the count mismatch
itself; the claimed failure-with-unchanged-row-count is refuted by
`C3_count_mismatch_inserts_row`. -/
theorem C3_mismatched_insert_succeeds {db : Database} {s : InsertStmt}
    {t : Table} {idxs : List Nat} {vals : List Value}
    (ht : db.getTable s.table = some t)
    (hne : s.columns.isEmpty = false)
    (hres : resolveCols t s.columns = .ok (some idxs))
    (hfill : fillVals (List.replicate t.columns.length Value.none)
      (idxs.zip s.values) = .ok vals)
    (htypes : rowTypesOk t.columns vals = true) :
    execInsert db s =
      (db.setTable (lowerStr s.table) { t with rows := t.rows ++ [vals] },
        .ok true) ∧
    (db.setTable (lowerStr s.table)
      { t with rows := t.rows ++ [vals] }).getTable s.table =
      some { t with rows := t.rows ++ [vals] } ∧
    ({ t with rows := t.rows ++ [vals] } : Table).rows.length =
      t.rows.length + 1 := by
  have hw : vals.length = t.columns.length := by
    have := C3_fill_width _ _ _ hfill
    rw [this, List.length_replicate]
  have haddRow : t.addRow vals =
      ({ t with rows := t.rows ++ [vals] }, true) := by
    unfold Table.addRow
    rw [if_neg (by omega)]
    rw [if_pos (show ((t.columns.zip vals).all
      fun p => validateType p.2 p.1.type) = true from htypes)]
  refine ⟨?_, getTable_setTable ht _, by simp⟩
  unfold execInsert
  rw [ht]
  show (if s.columns.isEmpty = true then
      match s.values.mapM (evalExpr Option.none Option.none) with
      | Except.error e => (db, Except.error e)
      | Except.ok vals =>
        match t.addRow vals with
        | (t', ok) =>
          if ok = true then
            (db.setTable (lowerStr s.table) t', Except.ok true)
          else (db, Except.ok false)
    else
      match resolveCols t s.columns with
      | Except.error e => (db, Except.error e)
      | Except.ok Option.none => (db, Except.ok false)
      | Except.ok (some idxs) =>
        match fillVals (List.replicate t.columns.length Value.none)
            (idxs.zip s.values) with
        | Except.error e => (db, Except.error e)
        | Except.ok vals =>
          match t.addRow vals with
          | (t', ok) =>
            if ok = true then
              (db.setTable (lowerStr s.table) t', Except.ok true)
            else (db, Except.ok false)) =
    (db.setTable (lowerStr s.table) { t with rows := t.rows ++ [vals] },
      .ok true)
  rw [if_neg (by rw [hne]; simp)]
  simp only [hres, hfill, haddRow, if_true]

theorem C3_mismatched_insert_succeeds_witness :
    execInsert c3Db c3Ins =
      (c3Db.setTable (lowerStr "t")
        { c3T with rows := c3T.rows ++ [[.int 1, .none]] }, .ok true) ∧
    (c3Db.setTable (lowerStr "t")
      { c3T with rows := c3T.rows ++ [[.int 1, .none]] }).getTable "t" =
      some { c3T with rows := c3T.rows ++ [[.int 1, .none]] } ∧
    ({ c3T with rows := c3T.rows ++ [[.int 1, .none]] } : Table).rows.length =
      c3T.rows.length + 1 :=
  C3_mismatched_insert_succeeds (by decide) (by decide)
    (by decide : resolveCols c3T [.ident "a", .ident "b"] =
      .ok (some [0, 1]))
    (by decide : fillVals (List.replicate (2 : Nat) Value.none)
      (([0, 1] : List Nat).zip [Node.lit (Lit.int 1)]) =
      Except.ok [Value.int 1, Value.none])
    (by decide)

/-- C3 counterexample: `INSERT INTO t (a, b) VALUES (1)` names two
columns but supplies one value, yet the statement succeeds and the row
count grows from 0 to 1 (the unmatched column is `None`) — the count
mismatch itself never fails the insert.  The statement can still return
`False` with the rows unchanged for the orthogonal reason of type
validation: `INSERT INTO t (a, b) VALUES ('x')` has the same count
mismatch but `add_row` rejects the text value for INT column `a`. -/
theorem C3_count_mismatch_inserts_row :
    c3Ins.columns.length ≠ c3Ins.values.length ∧
    execQuery (Stmt.insert c3Ins) c3Db =
      (⟨[("t", ⟨"t", "t", [⟨.text "a", .INT⟩, ⟨.text "b", .INT⟩],
        [[.int 1, .none]]⟩)]⟩, .ok true) ∧
    c3BadIns.columns.length ≠ c3BadIns.values.length ∧
    execQuery (Stmt.insert c3BadIns) c3Db = (c3Db, .ok false) := by
  refine ⟨by decide, by decide, by decide, by decide⟩

/-! ## Claim C4 -/

/-- C4: `_execute_delete` is atomic — the row storage is replaced only
after the whole scan, so a failing DELETE leaves the catalog exactly as
it was.  The UPDATE half of the claim is false:
`C4_update_partial_application` shows an UPDATE failing mid-scan with
the first matched row already mutated. -/
theorem C4_delete_never_partial {db : Database} {s : DeleteStmt}
    {db' : Database} {e : PyErr}
    (h : execDelete db s = (db', .error e)) : db' = db := by
  cases hg : db.getTable s.table with
  | none =>
    have hx : execDelete db s = (db, .ok (false, 0)) := by
      unfold execDelete
      rw [hg]
    rw [hx] at h
    cases h
  | some t =>
    cases hd : deleteGo t s.whereClause t.rows with
    | error e2 =>
      have hx : execDelete db s = (db, .error e2) := by
        unfold execDelete
        rw [hg]
        show (match deleteGo t s.whereClause t.rows with
          | Except.error e =>
            ((db, Except.error e) : Database × Except PyErr (Bool × Nat))
          | Except.ok (kept, n) =>
            (db.setTable (lowerStr s.table) { t with rows := kept },
              Except.ok (true, n))) = (db, .error e2)
        rw [hd]
      rw [hx] at h
      cases h
      rfl
    | ok p =>
      obtain ⟨kept, n⟩ := p
      have hx : execDelete db s =
          (db.setTable (lowerStr s.table) { t with rows := kept },
            .ok (true, n)) := by
        unfold execDelete
        rw [hg]
        show (match deleteGo t s.whereClause t.rows with
          | Except.error e =>
            ((db, Except.error e) : Database × Except PyErr (Bool × Nat))
          | Except.ok (kept, n) =>
            (db.setTable (lowerStr s.table) { t with rows := kept },
              Except.ok (true, n))) =
          (db.setTable (lowerStr s.table) { t with rows := kept },
            .ok (true, n))
        rw [hd]
      rw [hx] at h
      cases h

theorem C4_delete_never_partial_witness :
    ((c4Db, Except.error PyErr.typeErr) :
      Database × Except PyErr (Bool × Nat)).1 = c4Db :=
  C4_delete_never_partial
    (by decide : execDelete c4Db c4Del =
      (((c4Db, Except.error PyErr.typeErr) :
        Database × Except PyErr (Bool × Nat)).1, Except.error PyErr.typeErr))

/-- C4 counterexample: `UPDATE t SET a = 9 WHERE a < 2` on rows
`[1], [None]` mutates the first row, then raises `TypeError` on the
second; the catalog is left with the half-applied update. -/
theorem C4_update_partial_application :
    execUpdate c4Db ⟨"t", [⟨"a", .lit (.int 9)⟩],
      some (.cond .LESS (.ident "a") (.lit (.int 2)))⟩ =
      (⟨[("t", ⟨"t", "t", [⟨.text "a", .INT⟩], [[.int 9], [.none]]⟩)]⟩,
        .error .typeErr) ∧
    (⟨[("t", ⟨"t", "t", [⟨.text "a", .INT⟩], [[.int 9], [.none]]⟩)]⟩ :
      Database) ≠ c4Db := by
  refine ⟨by decide, by decide⟩

/-! ## Claim C6 -/

theorem deleteGo_none_spec {t : Table} : ∀ (rows ks : List (List Value))
    (n : Nat), deleteGo t Option.none rows = .ok (ks, n) →
    ks = [] ∧ n = rows.length := by
  intro rows
  induction rows with
  | nil =>
    intro ks n h
    cases h
    exact ⟨rfl, rfl⟩
  | cons r rs ih =>
    intro ks n h
    rw [show deleteGo t Option.none (r :: rs) =
      (match deleteGo t Option.none rs with
      | .error e => .error e
      | .ok (ks, n) => .ok (ks, n + 1)) from rfl] at h
    cases hd : deleteGo t Option.none rs with
    | error e => rw [hd] at h; cases h
    | ok p =>
      obtain ⟨ks2, n2⟩ := p
      rw [hd] at h
      cases h
      obtain ⟨h1, h2⟩ := ih _ _ hd
      exact ⟨h1, by rw [h2]; rfl⟩

theorem deleteGo_some_spec {t : Table} {c : Node} :
    ∀ (rows ks : List (List Value)) (n : Nat),
    deleteGo t (some c) rows = .ok (ks, n) →
    ks = rows.filter (fun r => decide (evalCond t r c = Except.ok false)) ∧
    n + ks.length = rows.length := by
  intro rows
  induction rows with
  | nil =>
    intro ks n h
    cases h
    exact ⟨rfl, rfl⟩
  | cons r rs ih =>
    intro ks n h
    rw [show deleteGo t (some c) (r :: rs) =
      (match evalCond t r c with
      | .error e => .error e
      | .ok false =>
        match deleteGo t (some c) rs with
        | .error e => .error e
        | .ok (ks, n) => .ok (r :: ks, n)
      | .ok true =>
        match deleteGo t (some c) rs with
        | .error e => .error e
        | .ok (ks, n) => .ok (ks, n + 1)) from rfl] at h
    cases hc : evalCond t r c with
    | error e => rw [hc] at h; cases h
    | ok b =>
      rw [hc] at h
      cases b with
      | true =>
        cases hd : deleteGo t (some c) rs with
        | error e => rw [hd] at h; cases h
        | ok p =>
          obtain ⟨ks2, n2⟩ := p
          rw [hd] at h
          cases h
          obtain ⟨h1, h2⟩ := ih _ _ hd
          refine ⟨?_, ?_⟩
          · rw [List.filter_cons]
            rw [show decide (evalCond t r c = Except.ok false) = false by
              rw [hc]; decide]
            simp only [Bool.false_eq_true, if_false]
            exact h1
          · simp only [List.length_cons]
            omega
      | false =>
        cases hd : deleteGo t (some c) rs with
        | error e => rw [hd] at h; cases h
        | ok p =>
          obtain ⟨ks2, n2⟩ := p
          rw [hd] at h
          cases h
          obtain ⟨h1, h2⟩ := ih _ _ hd
          refine ⟨?_, ?_⟩
          · rw [List.filter_cons]
            rw [show decide (evalCond t r c = Except.ok false) = true by
              rw [hc]; decide]
            rw [if_pos rfl, h1]
          · simp only [List.length_cons]
            omega

/-- C6: a successful `DELETE FROM t [WHERE cond]` leaves exactly the
rows on which the condition evaluated false, in their original relative
order (a `List.filter` of the old rows), and reports as deleted count
exactly the number of rows removed; with no WHERE clause every row is
removed and counted. -/
theorem C6_delete_filters_rows {db : Database} {s : DeleteStmt} {t : Table}
    {db' : Database} {n : Nat}
    (ht : db.getTable s.table = some t)
    (h : execDelete db s = (db', .ok (true, n))) :
    ∃ kept, db'.getTable s.table = some { t with rows := kept } ∧
      (match s.whereClause with
       | Option.none => kept = [] ∧ n = t.rows.length
       | some c =>
         kept = t.rows.filter
             (fun r => decide (evalCond t r c = Except.ok false)) ∧
           n + kept.length = t.rows.length) := by
  cases hd : deleteGo t s.whereClause t.rows with
  | error e =>
    have hx : execDelete db s = (db, .error e) := by
      unfold execDelete
      rw [ht]
      show (match deleteGo t s.whereClause t.rows with
        | Except.error e =>
          ((db, Except.error e) : Database × Except PyErr (Bool × Nat))
        | Except.ok (kept, n) =>
          (db.setTable (lowerStr s.table) { t with rows := kept },
            Except.ok (true, n))) = (db, .error e)
      rw [hd]
    rw [hx] at h
    cases h
  | ok p =>
    obtain ⟨kept, n2⟩ := p
    have hx : execDelete db s =
        (db.setTable (lowerStr s.table) { t with rows := kept },
          .ok (true, n2)) := by
      unfold execDelete
      rw [ht]
      show (match deleteGo t s.whereClause t.rows with
        | Except.error e =>
          ((db, Except.error e) : Database × Except PyErr (Bool × Nat))
        | Except.ok (kept, n) =>
          (db.setTable (lowerStr s.table) { t with rows := kept },
            Except.ok (true, n))) =
        (db.setTable (lowerStr s.table) { t with rows := kept },
          .ok (true, n2))
      rw [hd]
    rw [hx] at h
    cases h
    refine ⟨kept, getTable_setTable ht _, ?_⟩
    cases hwc : s.whereClause with
    | none =>
      rw [hwc] at hd
      exact deleteGo_none_spec _ _ _ hd
    | some c =>
      rw [hwc] at hd
      exact deleteGo_some_spec _ _ _ hd

theorem C6_delete_filters_rows_witness :
    ∃ kept,
      (execDelete c6Db c6Del).1.getTable "t" =
        some { (⟨"t", "t", [⟨.text "a", .INT⟩], [[.int 1], [.int 2]]⟩ :
          Table) with rows := kept } ∧
      (match c6Del.whereClause with
       | Option.none => kept = [] ∧ 1 = ([[Value.int 1], [Value.int 2]] :
           List (List Value)).length
       | some c =>
         kept = ([[Value.int 1], [Value.int 2]] :
             List (List Value)).filter
             (fun r => decide (evalCond
               (⟨"t", "t", [⟨.text "a", .INT⟩], [[.int 1], [.int 2]]⟩ :
                 Table) r c = Except.ok false)) ∧
           1 + kept.length = ([[Value.int 1], [Value.int 2]] :
             List (List Value)).length) :=
  C6_delete_filters_rows (by decide)
    (by decide : execDelete c6Db c6Del = ((execDelete c6Db c6Del).1,
      .ok (true, 1)))

/-! ## Claim C7 -/

/-- C7: identifier resolution is lenient inside condition evaluation —
when `Table.colIdx` finds no column of that name, `evalExpr` returns the
identifier's own name as a text value instead of erroring — whereas the
projected column list of `execSelect` is strict: an unresolved name
(`resolveCols` returning `none`) makes the whole SELECT return `false`. -/
theorem C7_lenient_where_strict_select :
    (∀ (t : Table) (row : List Value) (name : String),
      t.colIdx name = .ok Option.none →
      evalExpr (some t) (some row) (.ident name) = .ok (.str name)) ∧
    (∀ (db : Database) (s : SelectStmt) (tname : String)
      (ts : List String) (t : Table) (c0 : Node) (cs : List Node)
      (n0 : String),
      s.tables = tname :: ts → db.getTable tname = some t →
      s.columns = c0 :: cs → dataName c0 = .ok n0 → n0 ≠ "*" →
      resolveCols t s.columns = .ok Option.none →
      execSelect db s = .ok false) := by
  constructor
  · intro t row name h
    cases row with
    | nil => rfl
    | cons v vs =>
      show (match t.colIdx name with
        | .error e => Except.error e
        | .ok (some i) =>
          match (v :: vs)[i]? with
          | some w => Except.ok w
          | Option.none => Except.error PyErr.indexErr
        | .ok Option.none => Except.ok (Value.str name)) =
        .ok (.str name)
      rw [h]
  · intro db s tname ts t c0 cs n0 h1 h2 h3 h4 h5 h6
    obtain ⟨cols, tabs, joins, wc⟩ := s
    simp only at h1 h3 h6
    subst h1
    subst h3
    simp only [execSelect, h2, h4, h6, if_neg h5]

/-- C9: `execSelect` unconditionally reads the `name` field of the first
projected column node (`dataName`), so whenever that node is not a bare
identifier the whole SELECT raises `KeyError: 'name'`; `dataName` errors
on every non-identifier node; and the parser does accept such statements:
`SELECT 1 FROM t` parses to a select whose first column is the literal
`1`, and executing it against a one-table catalog yields the KeyError. -/
theorem C9_non_ident_first_column_keyerror :
    (∀ (db : Database) (s : SelectStmt) (tname : String)
      (ts : List String) (t : Table) (c0 : Node) (cs : List Node),
      s.tables = tname :: ts → db.getTable tname = some t →
      s.columns = c0 :: cs → dataName c0 = .error (.keyErr "name") →
      execSelect db s = .error (.keyErr "name")) ∧
    (∀ (c0 : Node), (∀ n, c0 ≠ .ident n) →
      dataName c0 = .error (.keyErr "name")) ∧
    parseStatement (tokenize "SELECT 1 FROM t") =
      .ok (.select c9Sel, []) ∧
    execSelect c9Db c9Sel = .error (.keyErr "name") := by
  refine ⟨?_, ?_, rfl, rfl⟩
  · intro db s tname ts t c0 cs h1 h2 h3 h4
    obtain ⟨cols, tabs, joins, wc⟩ := s
    simp only at h1 h3
    subst h1
    subst h3
    simp only [execSelect, h2, h4]
  · intro c0 h
    cases c0 with
    | ident n => exact absurd rfl (h n)
    | lit v => rfl
    | expr op l r => rfl
    | cond op l r => rfl

/-! ## Claim C8 -/

theorem numRun_cons_dot_false {cs : List Char} :
    numRun ('.' :: cs) false =
      ('.' :: (numRun cs true).1, (numRun cs true).2) := by
  conv_lhs => unfold numRun
  rw [if_neg (by decide), if_pos rfl, if_neg (by decide)]

theorem numRun_cons_dot_true {cs : List Char} :
    numRun ('.' :: cs) true = ([], true, '.' :: cs) := by
  conv_lhs => unfold numRun
  rw [if_neg (by decide), if_pos rfl, if_pos rfl]

theorem numRun_cons_other {c : Char} {cs : List Char} {f : Bool}
    (h1 : c.isDigit = false) (h2 : c ≠ '.') :
    numRun (c :: cs) f = ([], f, c :: cs) := by
  conv_lhs => unfold numRun
  rw [if_neg (by simp [h1]), if_neg h2]

theorem numRun_spec :
    ∀ (cs : List Char) (f : Bool) (l : List Char) (f' : Bool)
      (r : List Char), numRun cs f = (l, f', r) →
      cs = l ++ r ∧
      (∀ x ∈ l, x.isDigit = true ∨ x = '.') ∧
      l.count '.' + (if f then 1 else 0) ≤ 1 ∧
      (f' = true ↔ (f = true ∨ '.' ∈ l)) ∧
      (∀ x xs, r = x :: xs → x.isDigit = false ∧
        (x = '.' → f' = true)) := by
  intro cs
  induction cs with
  | nil =>
    intro f l f' r h
    cases h
    refine ⟨rfl, by simp, by cases f <;> simp, by simp, ?_⟩
    intro x xs hx
    cases hx
  | cons c cs ih =>
    intro f l f' r h
    by_cases hd : c.isDigit = true
    · rcases hA : numRun cs f with ⟨l0, f0, r0⟩
      have hstep : numRun (c :: cs) f = (c :: l0, f0, r0) := by
        rw [numRun_cons_digit hd, hA]
      rw [hstep] at h
      injection h with hx hy
      injection hy with hy1 hy2
      subst hx
      subst hy1
      subst hy2
      obtain ⟨h1, h2, h3, h4, h5⟩ := ih f l0 f0 r0 hA
      have hcd : c ≠ '.' := by
        intro hcc
        rw [hcc] at hd
        exact absurd hd (by decide)
      refine ⟨by rw [h1]; rfl, ?_, ?_, ?_, h5⟩
      · intro x hx
        rcases List.mem_cons.mp hx with hx | hx
        · exact Or.inl (hx ▸ hd)
        · exact h2 x hx
      · rw [List.count_cons_of_ne (Ne.symm hcd)]
        exact h3
      · rw [h4]
        constructor
        · rintro (hf | hm)
          · exact Or.inl hf
          · exact Or.inr (List.mem_cons_of_mem _ hm)
        · rintro (hf | hm)
          · exact Or.inl hf
          · rcases List.mem_cons.mp hm with he | hm2
            · exact absurd he.symm hcd
            · exact Or.inr hm2
    · have hdf : c.isDigit = false := Bool.eq_false_iff.mpr hd
      by_cases hdot : c = '.'
      · subst hdot
        cases f with
        | true =>
          rw [numRun_cons_dot_true] at h
          injection h with hx hy
          injection hy with hy1 hy2
          subst hx
          subst hy1
          subst hy2
          refine ⟨rfl, by simp, by simp, by simp, ?_⟩
          intro x xs hx
          injection hx with hx1 hx2
          subst hx1
          exact ⟨by decide, fun _ => rfl⟩
        | false =>
          rcases hA2 : numRun cs true with ⟨l1, f1, r1⟩
          have hstep : numRun ('.' :: cs) false = ('.' :: l1, f1, r1) := by
            rw [numRun_cons_dot_false, hA2]
          rw [hstep] at h
          injection h with hx hy
          injection hy with hy1 hy2
          subst hx
          subst hy1
          subst hy2
          obtain ⟨h1, h2, h3, h4, h5⟩ := ih true l1 f1 r1 hA2
          have h3' : List.count '.' l1 + 1 ≤ 1 := by simpa using h3
          refine ⟨by rw [h1]; rfl, ?_, ?_, ?_, h5⟩
          · intro x hx
            rcases List.mem_cons.mp hx with hx | hx
            · exact Or.inr hx
            · exact h2 x hx
          · show List.count '.' ('.' :: l1) + 0 ≤ 1
            rw [List.count_cons_self]
            omega
          · rw [h4]
            simp
      · have hstep : numRun (c :: cs) f = ([], f, c :: cs) :=
          numRun_cons_other hdf hdot
        rw [hstep] at h
        injection h with hx hy
        injection hy with hy1 hy2
        subst hx
        subst hy1
        subst hy2
        refine ⟨rfl, by simp, by cases f <;> simp, by simp, ?_⟩
        intro x xs hx
        injection hx with hx1 hx2
        subst hx1
        exact ⟨hdf, fun hxx => absurd hxx hdot⟩

theorem numberTok_spec (cs : List Char) :
    ∃ (l r : List Char),
      numberTok cs = (⟨if l.count '.' = 1 then Tok.FLOAT_LITERAL
        else Tok.INTEGER, String.mk l⟩, r) ∧
      cs = l ++ r ∧
      (∀ x ∈ l, x.isDigit = true ∨ x = '.') ∧
      l.count '.' ≤ 1 ∧
      (∀ x xs, r = x :: xs → x.isDigit = false ∧
        (x = '.' → l.count '.' = 1)) := by
  rcases hA : numRun cs false with ⟨l0, f0, r0⟩
  obtain ⟨h1, h2, h3, h4, h5⟩ := numRun_spec cs false l0 f0 r0 hA
  have h3' : l0.count '.' ≤ 1 := by simpa using h3
  have hmem : f0 = true ↔ '.' ∈ l0 := by
    rw [h4]
    simp
  have hcount1 : '.' ∈ l0 → l0.count '.' = 1 := by
    intro hm
    have hpos : 0 < l0.count '.' := List.count_pos_iff.mpr hm
    omega
  refine ⟨l0, r0, ?_, h1, h2, h3', ?_⟩
  · unfold numberTok
    rw [hA]
    show (if f0 = true then
        ((⟨Tok.FLOAT_LITERAL, String.mk l0⟩, r0) : Token × List Char)
      else (⟨Tok.INTEGER, String.mk l0⟩, r0)) =
      (⟨if l0.count '.' = 1 then Tok.FLOAT_LITERAL else Tok.INTEGER,
        String.mk l0⟩, r0)
    by_cases hf : f0 = true
    · rw [if_pos hf, if_pos (hcount1 (hmem.mp hf))]
    · have hnm : '.' ∉ l0 := fun hm => hf (hmem.mpr hm)
      have hz : l0.count '.' = 0 := List.count_eq_zero.mpr hnm
      rw [if_neg hf, if_neg (by omega)]
  · intro x xs hx
    obtain ⟨ha, hb⟩ := h5 x xs hx
    exact ⟨ha, fun hxx => hcount1 (hmem.mp (hb hxx))⟩

/-- C8: on input starting with a digit `nextTokenCore` dispatches to
`numberTok`, which consumes a maximal prefix of digits containing at
most one dot — the remainder starts with a non-digit, and starts with a
dot only when the lexeme already took its one dot — and labels the
lexeme `FLOAT_LITERAL` exactly when it contains one dot, `INTEGER`
otherwise; concretely `tokenize "1.2.3"` is FLOAT_LITERAL `1.2`, DOT,
INTEGER `3`. -/
theorem C8_number_lexing :
    (∀ (c : Char) (cs : List Char), c.isDigit = true →
      nextTokenCore (c :: cs) = numberTok (c :: cs)) ∧
    (∀ (cs : List Char), ∃ (l r : List Char),
      numberTok cs = (⟨if l.count '.' = 1 then Tok.FLOAT_LITERAL
        else Tok.INTEGER, String.mk l⟩, r) ∧
      cs = l ++ r ∧
      (∀ x ∈ l, x.isDigit = true ∨ x = '.') ∧
      l.count '.' ≤ 1 ∧
      (∀ x xs, r = x :: xs → x.isDigit = false ∧
        (x = '.' → l.count '.' = 1))) ∧
    tokenize "1.2.3" = [⟨.FLOAT_LITERAL, "1.2"⟩, ⟨.DOT, "."⟩,
      ⟨.INTEGER, "3"⟩] := by
  refine ⟨?_, numberTok_spec, rfl⟩
  intro c cs hc
  have hv := digit_val hc
  unfold nextTokenCore
  simp only
  rw [if_neg (by simp [isIdentStart_eq_false_of_le hv.2]), if_pos hc]

/-! ## Parser shape lemmas (claims C5 and C10) -/

theorem parseLiteral_shape :
    ∀ (ts : List Token) (n : Node) (r : List Token),
      parseLiteral ts = .ok (n, r) → ∃ v, n = .lit v := by
  intro ts n r h
  rw [parseLiteral.eq_def] at h
  split at h
  · split at h
    · cases h
      exact ⟨_, rfl⟩
    · cases h
  · split at h
    · cases h
      exact ⟨_, rfl⟩
    · cases h
  · cases h
    exact ⟨_, rfl⟩
  · cases h
    exact ⟨_, rfl⟩
  · cases h

theorem parseExpr_shape :
    ∀ (ts : List Token) (n : Node) (r : List Token),
      parseExpr ts = .ok (n, r) →
      isConnCond n = false ∧ rightAssoc n = true ∧ noNot n = true := by
  intro ts
  induction ts with
  | nil =>
    intro n r h
    simp [parseExpr] at h
  | cons t rest ih =>
    intro n r h
    rw [parseExpr.eq_def] at h
    split at h
    · split at h
      · split at h
        · cases h
          exact ⟨rfl, rfl, rfl⟩
        · cases h
      · cases h
        exact ⟨rfl, rfl, rfl⟩
    · rename_i t2 r2 hnotid heq1
      injection heq1 with ht hr
      subst ht
      subst hr
      split at h
      · obtain ⟨v, rfl⟩ := parseLiteral_shape _ _ _ h
        exact ⟨rfl, rfl, rfl⟩
      · split at h
        · split at h
          · split at h
            · cases h
              exact ih _ _ (by assumption)
            · cases h
          · cases h
        · cases h
    · cases h

theorem cmpOp_not_conn : ∀ t : Tok, isCmpOp t = true →
    (decide (t = Tok.AND) || decide (t = Tok.OR)) = false := by
  intro t
  cases t <;> decide

theorem cmpOp_not_not : ∀ t : Tok, isCmpOp t = true →
    decide (t = Tok.NOT) = false := by
  intro t
  cases t <;> decide

theorem condLoop_peek : ∀ (fuel : Nat) (node : Node) (ts : List Token)
    (n : Node) (r : List Token), condLoop fuel node ts = .ok (n, r) →
    ¬(peekT r = .AND ∨ peekT r = .OR) := by
  intro fuel
  induction fuel with
  | zero =>
    intro node ts n r h
    simp [condLoop] at h
  | succ fuel ih =>
    intro node ts n r h
    simp only [condLoop] at h
    split at h
    · split at h
      · split at h
        · cases h
        · exact ih _ _ _ _ h
      · cases h
    · rename_i hg
      cases h
      exact hg

theorem parseCond_peek : ∀ (fuel : Nat) (ts : List Token) (n : Node)
    (r : List Token), parseCond fuel ts = .ok (n, r) →
    ¬(peekT r = .AND ∨ peekT r = .OR) := by
  intro fuel ts n r h
  cases fuel with
  | zero => simp [parseCond] at h
  | succ fuel =>
    simp only [parseCond] at h
    split at h
    · cases h
    · split at h
      · split at h
        · split at h
          · cases h
          · exact condLoop_peek fuel _ _ _ _ h
        · cases h
      · exact condLoop_peek fuel _ _ _ _ h

theorem parseCond_shape : ∀ (fuel : Nat),
    (∀ (ts : List Token) (n : Node) (r : List Token),
      parseCond fuel ts = .ok (n, r) →
      rightAssoc n = true ∧ noNot n = true) ∧
    (∀ (node : Node) (ts : List Token) (n : Node) (r : List Token),
      rightAssoc node = true → noNot node = true →
      (isConnCond node = false ∨ ¬(peekT ts = .AND ∨ peekT ts = .OR)) →
      condLoop fuel node ts = .ok (n, r) →
      rightAssoc n = true ∧ noNot n = true) := by
  intro fuel
  induction fuel with
  | zero =>
    constructor
    · intro ts n r h
      simp [parseCond] at h
    · intro node ts n r _ _ _ h
      simp [condLoop] at h
  | succ fuel ih =>
    constructor
    · intro ts n r h
      simp only [parseCond] at h
      split at h
      · cases h
      · rename_i node r1 hp
        obtain ⟨hconn, hra, hnn⟩ := parseExpr_shape _ _ _ hp
        split at h
        · rename_i hc
          split at h
          · rename_i t r2
            split at h
            · cases h
            · rename_i right r3 hp2
              have hct : isCmpOp t.type = true := hc
              obtain ⟨hconn2, hra2, hnn2⟩ := parseExpr_shape _ _ _ hp2
              refine ih.2 (.cond t.type node right) r3 n r ?_ ?_ ?_ h
              · simp [rightAssoc, hra, hra2, cmpOp_not_conn t.type hct]
              · simp [noNot, hnn, hnn2, cmpOp_not_not t.type hct]
              · left
                simp [isConnCond, cmpOp_not_conn t.type hct]
          · cases h
        · rename_i hc
          exact ih.2 node r1 n r hra hnn (Or.inl hconn) h
    · intro node ts n r hra hnn hdisj h
      simp only [condLoop] at h
      split at h
      · rename_i hg
        have hconn : isConnCond node = false := by
          rcases hdisj with hd | hd
          · exact hd
          · exact absurd hg hd
        split at h
        · rename_i t ts2
          split at h
          · cases h
          · rename_i right r2 hp
            obtain ⟨hra2, hnn2⟩ := ih.1 ts2 right r2 hp
            have hop : t.type = .AND ∨ t.type = .OR := by
              rcases hg with hg | hg
              · exact Or.inl hg
              · exact Or.inr hg
            refine ih.2 (.cond t.type node right) r2 n r ?_ ?_ ?_ h
            · simp [rightAssoc, hra, hra2, hconn]
            · have hnotn : decide (t.type = Tok.NOT) = false := by
                rcases hop with hop | hop <;> rw [hop] <;> decide
              simp [noNot, hnn, hnn2, hnotn]
            · right
              exact parseCond_peek fuel ts2 right r2 hp
        · cases h
      · rename_i hg
        cases h
        exact ⟨hra, hnn⟩

/-! ## Claim C5 -/

/-- C5: every condition tree returned by `parseCond` is right-associated
(`rightAssoc`: no AND/OR node has an AND/OR node as its left operand),
because the trailing connective loop parses its right operand with a
recursive `parseCond` that itself consumes the whole remaining chain;
concretely `a AND b AND c` parses as `a AND (b AND c)` and
`a AND b OR c` as `a AND (b OR c)`. -/
theorem C5_right_associated_conditions :
    (∀ (fuel : Nat) (ts : List Token) (n : Node) (r : List Token),
      parseCond fuel ts = .ok (n, r) → rightAssoc n = true) ∧
    parseStatement (tokenize "DELETE FROM t WHERE a AND b AND c") =
      .ok (.delete ⟨"t", some (.cond .AND (.ident "a")
        (.cond .AND (.ident "b") (.ident "c")))⟩, []) ∧
    parseStatement (tokenize "DELETE FROM t WHERE a AND b OR c") =
      .ok (.delete ⟨"t", some (.cond .AND (.ident "a")
        (.cond .OR (.ident "b") (.ident "c")))⟩, []) := by
  refine ⟨?_, rfl, rfl⟩
  intro fuel ts n r h
  exact ((parseCond_shape fuel).1 ts n r h).1

/-! ## Claim C10 -/

theorem parseExprList_noNot : ∀ (fuel : Nat) (ts : List Token)
    (ns : List Node) (r : List Token),
    parseExprList fuel ts = .ok (ns, r) → ns.all noNot = true := by
  intro fuel
  induction fuel with
  | zero =>
    intro ts ns r h
    simp [parseExprList] at h
  | succ fuel ih =>
    intro ts ns r h
    simp only [parseExprList] at h
    split at h
    · cases h
    · rename_i e r1 hp
      split at h
      · split at h
        · cases h
        · rename_i es r3 hp2
          cases h
          simp only [List.all_cons, Bool.and_eq_true]
          exact ⟨(parseExpr_shape _ _ _ hp).2.2, ih _ _ _ hp2⟩
      · cases h
        simp only [List.all_cons, List.all_nil, Bool.and_true]
        exact (parseExpr_shape _ _ _ hp).2.2

theorem parseColumnList_noNot {fuel : Nat} {ts : List Token}
    {ns : List Node} {r : List Token}
    (h : parseColumnList fuel ts = .ok (ns, r)) : ns.all noNot = true := by
  unfold parseColumnList at h
  split at h
  · cases h
    decide
  · exact parseExprList_noNot _ _ _ _ h

theorem parseJoins_noNot : ∀ (fuel : Nat) (ts : List Token)
    (js : List JoinClause) (r : List Token),
    parseJoins fuel ts = .ok (js, r) →
    js.all (fun j => noNot j.onCond) = true := by
  intro fuel
  induction fuel with
  | zero =>
    intro ts js r h
    simp [parseJoins] at h
  | succ fuel ih =>
    intro ts js r h
    simp only [parseJoins] at h
    split at h
    · split at h
      · cases h
      · rename_i name r1 hp
        split at h
        · split at h
          · cases h
          · rename_i c r3 hpc
            split at h
            · cases h
            · rename_i js2 r4 hpj
              cases h
              simp only [List.all_cons, Bool.and_eq_true]
              exact ⟨((parseCond_shape _).1 _ _ _ hpc).2, ih _ _ _ hpj⟩
        · cases h
    · cases h
      rfl

theorem parseSetClause_noNot {ts : List Token} {sc : SetClause}
    {r : List Token} (h : parseSetClause ts = .ok (sc, r)) :
    noNot sc.right = true := by
  unfold parseSetClause at h
  split at h
  · split at h
    · cases h
    · rename_i e r1 hp
      cases h
      exact (parseExpr_shape _ _ _ hp).2.2
  · cases h
  · cases h

theorem parseSetClauses_noNot : ∀ (fuel : Nat) (ts : List Token)
    (scs : List SetClause) (r : List Token),
    parseSetClauses fuel ts = .ok (scs, r) →
    scs.all (fun sc => noNot sc.right) = true := by
  intro fuel
  induction fuel with
  | zero =>
    intro ts scs r h
    simp [parseSetClauses] at h
  | succ fuel ih =>
    intro ts scs r h
    simp only [parseSetClauses] at h
    split at h
    · cases h
    · rename_i sc r1 hp
      split at h
      · split at h
        · cases h
        · rename_i scs2 r3 hp2
          cases h
          simp only [List.all_cons, Bool.and_eq_true]
          exact ⟨parseSetClause_noNot hp, ih _ _ _ hp2⟩
      · cases h
        simp only [List.all_cons, List.all_nil, Bool.and_true]
        exact parseSetClause_noNot hp

theorem parseColumnDef_noNot {ts : List Token} {cd : ColumnDefAst}
    {r : List Token} (h : parseColumnDef ts = .ok (cd, r)) :
    noNot cd.name = true := by
  unfold parseColumnDef at h
  split at h
  · split at h
    · cases h
      rfl
    · cases h
  · cases h
  · cases h

theorem parseColumnDefs_noNot : ∀ (fuel : Nat) (ts : List Token)
    (cds : List ColumnDefAst) (r : List Token),
    parseColumnDefs fuel ts = .ok (cds, r) →
    cds.all (fun c => noNot c.name) = true := by
  intro fuel
  induction fuel with
  | zero =>
    intro ts cds r h
    simp [parseColumnDefs] at h
  | succ fuel ih =>
    intro ts cds r h
    simp only [parseColumnDefs] at h
    split at h
    · cases h
    · rename_i cd r1 hp
      split at h
      · split at h
        · cases h
        · rename_i cds2 r3 hp2
          cases h
          simp only [List.all_cons, Bool.and_eq_true]
          exact ⟨parseColumnDef_noNot hp, ih _ _ _ hp2⟩
      · cases h
        simp only [List.all_cons, List.all_nil, Bool.and_true]
        exact parseColumnDef_noNot hp

theorem parseSelect_noNot {ts : List Token} {s : SelectStmt}
    {r : List Token} (h : parseSelect ts = .ok (s, r)) :
    noNotStmt (.select s) = true := by
  unfold parseSelect at h
  split at h
  · cases h
  · rename_i cols r1 hp1
    split at h
    · split at h
      · cases h
      · rename_i tabs r2 hp2
        split at h
        · cases h
        · rename_i js r3 hpj
          split at h
          · split at h
            · cases h
            · rename_i c r5 hpc
              cases h
              simp only [noNotStmt, noNotOpt, Bool.and_eq_true]
              exact ⟨⟨parseColumnList_noNot hp1, parseJoins_noNot _ _ _ _ hpj⟩,
                ((parseCond_shape _).1 _ _ _ hpc).2⟩
          · cases h
            simp only [noNotStmt, noNotOpt, Bool.and_eq_true]
            exact ⟨⟨parseColumnList_noNot hp1, parseJoins_noNot _ _ _ _ hpj⟩,
              trivial⟩
    · cases h

theorem parseInsert_noNot {ts : List Token} {s : InsertStmt}
    {r : List Token} (h : parseInsert ts = .ok (s, r)) :
    noNotStmt (.insert s) = true := by
  unfold parseInsert at h
  split at h
  · split at h
    · split at h
      · split at h
        · cases h
        · rename_i cols2 r3 hp3
          split at h
          · simp only [] at h
            split at h
            · split at h
              · cases h
              · rename_i vals r7 hvp
                split at h
                · cases h
                  simp only [noNotStmt, Bool.and_eq_true]
                  exact ⟨parseColumnList_noNot hp3,
                    parseExprList_noNot _ _ _ _ hvp⟩
                · cases h
            · cases h
          · cases h
      · simp only [] at h
        split at h
        · split at h
          · cases h
          · rename_i vals r7 hvp
            split at h
            · cases h
              simp only [noNotStmt, Bool.and_eq_true]
              exact ⟨rfl, parseExprList_noNot _ _ _ _ hvp⟩
            · cases h
        · cases h
    · cases h
  · cases h

theorem parseUpdate_noNot {ts : List Token} {s : UpdateStmt}
    {r : List Token} (h : parseUpdate ts = .ok (s, r)) :
    noNotStmt (.update s) = true := by
  unfold parseUpdate at h
  split at h
  · split at h
    · cases h
    · rename_i scs r1 hp
      split at h
      · split at h
        · cases h
        · rename_i c r3 hpc
          cases h
          simp only [noNotStmt, noNotOpt, Bool.and_eq_true]
          exact ⟨parseSetClauses_noNot _ _ _ _ hp,
            ((parseCond_shape _).1 _ _ _ hpc).2⟩
      · cases h
        simp only [noNotStmt, noNotOpt, Bool.and_eq_true]
        exact ⟨parseSetClauses_noNot _ _ _ _ hp, trivial⟩
  · cases h
  · cases h

theorem parseDelete_noNot {ts : List Token} {s : DeleteStmt}
    {r : List Token} (h : parseDelete ts = .ok (s, r)) :
    noNotStmt (.delete s) = true := by
  unfold parseDelete at h
  split at h
  · split at h
    · split at h
      · cases h
      · rename_i c r2 hpc
        cases h
        exact ((parseCond_shape _).1 _ _ _ hpc).2
    · cases h
      rfl
  · cases h
  · cases h

theorem parseCreate_noNot {ts : List Token} {s : CreateStmt}
    {r : List Token} (h : parseCreate ts = .ok (s, r)) :
    noNotStmt (.create s) = true := by
  unfold parseCreate at h
  split at h
  · split at h
    · cases h
    · rename_i cds r1 hp
      split at h
      · cases h
        exact parseColumnDefs_noNot _ _ _ _ hp
      · cases h
  · cases h
  · cases h
  · cases h

theorem parseStatement_noNot : ∀ (ts : List Token) (s : Stmt)
    (r : List Token), parseStatement ts = .ok (s, r) →
    noNotStmt s = true := by
  intro ts s r h
  unfold parseStatement at h
  split at h
  · split at h
    · cases h
    · rename_i s1 r1 hp
      cases h
      exact parseSelect_noNot hp
  · split at h
    · cases h
    · rename_i s1 r1 hp
      cases h
      exact parseInsert_noNot hp
  · split at h
    · cases h
    · rename_i s1 r1 hp
      cases h
      exact parseUpdate_noNot hp
  · split at h
    · cases h
    · rename_i s1 r1 hp
      cases h
      exact parseDelete_noNot hp
  · split at h
    · cases h
    · rename_i s1 r1 hp
      cases h
      exact parseCreate_noNot hp
  · split at h
    · cases h
    · rename_i s1 r1 hp
      cases h
      rfl
  · cases h

theorem evalCond_eq_noNot : ∀ (c : Node) (t : Table) (row : List Value),
    noNot c = true → evalCond t row c = evalCondNoNot t row c := by
  intro c
  induction c with
  | ident n => intro t row _; rfl
  | lit v => intro t row _; rfl
  | expr op l r ihl ihr => intro t row _; rfl
  | cond op l r ihl ihr =>
    intro t row hn
    simp only [noNot, Bool.and_eq_true, Bool.not_eq_true'] at hn
    obtain ⟨⟨hop, hl⟩, hr⟩ := hn
    have hnot : op ≠ Tok.NOT := of_decide_eq_false hop
    simp only [evalCond, evalCondNoNot]
    rw [ihl t row hl, ihr t row hr]
    by_cases h1 : op = Tok.AND
    · simp [h1]
    · by_cases h2 : op = Tok.OR
      · simp [h1, h2]
      · rw [if_neg h1, if_neg h1, if_neg h2, if_neg h2, if_neg hnot,
          if_neg hnot]

/-- C10: the parser cannot produce a NOT condition: every statement
returned by `parseStatement` satisfies `noNotStmt` (no condition or
expression node anywhere carries the NOT operator); a query spelling
NOT in condition position, `DELETE FROM t WHERE NOT a`, fails with a
SyntaxError; and on NOT-free nodes `evalCond` agrees with
`evalCondNoNot`, whose NOT branch is a sentinel error — so the
evaluator's NOT branch is unreachable from parser output. -/
theorem C10_no_not_produced :
    (∀ (ts : List Token) (s : Stmt) (r : List Token),
      parseStatement ts = .ok (s, r) → noNotStmt s = true) ∧
    parseStatement (tokenize "DELETE FROM t WHERE NOT a") =
      .error "SyntaxError: Unexpected token in expression" ∧
    (∀ (t : Table) (row : List Value) (c : Node), noNot c = true →
      evalCond t row c = evalCondNoNot t row c) := by
  exact ⟨parseStatement_noNot, rfl,
    fun t row c hn => evalCond_eq_noNot c t row hn⟩

end SqlPbl
